import Mathlib

/-
Shallow embedding of the zk-clob core (crates/core/src) in Lean 4.

Modelling conventions:
* `U256` values are modelled as `Nat`.  The Rust `uint` arithmetic panics
  (aborting the batch) on 256-bit overflow; the claims considered here only
  involve values far below 2^256, where the two semantics agree.  The explicit
  512-bit checks of `math.rs` (`mul_div_down` / `mul_div_up`) are modelled
  with explicit `2^256` bounds, exactly as in the source.
* Byte strings are `List Nat` (one entry per byte).
* `keccak256` is an external library primitive (tiny-keccak); every definition
  that uses it takes it as an explicit function parameter, and every theorem
  quantifies over it.
* 20-byte addresses, 32-byte asset ids, market ids and order ids are opaque
  identifiers in the engine model and are represented by `Nat`.  The
  keccak-derived storage keys of `state.rs` (`key_balance`, `key_nonce`, ...)
  are injective on their structured pre-images up to keccak collisions; the
  engine-level state is therefore modelled as typed association lists keyed by
  the structured data, and the byte-level getters of `state.rs` are embedded
  separately over keccak-derived keys.
* ECDSA signature recovery (`verify.rs::verify_signature`, backed by the
  external `k256` crate) is abstracted as an oracle parameter of the engine;
  every engine theorem quantifies over it.
* The Rust match loop (`engine.rs::apply_batch`) is embedded with an explicit
  fuel parameter; fuel exhaustion is an error, so every statement about a
  successful run is faithful to the source for any fuel.
-/

inductive CoreError where
  | Decode (msg : String)
  | Invalid (msg : String)
  | Math (msg : String)
  | Signature (msg : String)
  | State (msg : String)
deriving DecidableEq, Repr

abbrev Bytes := List Nat

instance {ε α : Type} [DecidableEq ε] [DecidableEq α] : DecidableEq (Except ε α) := by
  intro a b
  cases a <;> cases b <;> first
    | (rename_i x y
       exact if h : x = y then isTrue (by rw [h]) else isFalse (by intro hc; cases hc; exact h rfl))
    | (apply isFalse; intro h; cases h)

/-! ### math.rs -/

def U256_LIMIT : Nat := 2 ^ 256

/-- `math.rs::mul_div_down`: ⌊a*b/denom⌋ via an exact 512-bit intermediate,
failing on division by zero and on a quotient that does not fit 256 bits. -/
def mul_div_down (a b denom : Nat) : Except CoreError Nat :=
  if denom = 0 then .error (.Math "division by zero")
  else
    let q := a * b / denom
    if q < U256_LIMIT then .ok q else .error (.Math "mul_div overflow")

/-- `math.rs::mul_div_up`: ⌈a*b/denom⌉ via an exact 512-bit intermediate;
the numerator is `a*b + denom - 1` unless `a*b = 0`. -/
def mul_div_up (a b denom : Nat) : Except CoreError Nat :=
  if denom = 0 then .error (.Math "division by zero")
  else
    let prod := a * b
    let numerator := if prod = 0 then prod else prod + denom - 1
    let q := numerator / denom
    if q < U256_LIMIT then .ok q else .error (.Math "mul_div overflow")

/-! ### merkle.rs -/

def ZERO32 : Bytes := List.replicate 32 0

/-- `constants.rs::NONE_TICK = i32::MIN`. -/
def NONE_TICK : Int := -(2 ^ 31)

/-- `merkle.rs::Proof` (named `MerkleProof` here to avoid clashing with Lean's
`Proof`-related names; fields as in the source). -/
structure MerkleProof where
  key : Bytes
  value : Bytes
  present : Bool
  siblings : List Bytes
deriving DecidableEq, Repr

/-- `merkle.rs::leaf_hash`: keccak(0x00 ∥ key ∥ keccak(value)). -/
def leaf_hash (keccak : Bytes → Bytes) (key value : Bytes) : Bytes :=
  keccak (0x00 :: (key ++ keccak value))

/-- `merkle.rs::leaf_hash_absent`: the all-zero 32-byte hash. -/
def leaf_hash_absent : Bytes := ZERO32

/-- `merkle.rs::node_hash`: keccak(0x01 ∥ left ∥ right). -/
def node_hash (keccak : Bytes → Bytes) (left right : Bytes) : Bytes :=
  keccak (0x01 :: (left ++ right))

/-- `merkle.rs::get_bit`: bit `depth` of the key, MSB-first within each byte. -/
def get_bit (key : Bytes) (depth : Nat) : Nat :=
  (key.getD (depth / 8) 0) >>> (7 - depth % 8) &&& 1

/-- The common sibling fold of `verify_proof` / `apply_proof`: starting from a
leaf hash, combine with `siblings[depth]` for `depth = 255` down to `0`,
taking the left-child position when bit `depth` of the key is 0. -/
def fold_path (keccak : Bytes → Bytes) (key : Bytes) (siblings : List Bytes) (leaf : Bytes) : Bytes :=
  (List.range 256).reverse.foldl
    (fun cur depth =>
      let sibling := siblings.getD depth ZERO32
      if get_bit key depth = 0 then node_hash keccak cur sibling
      else node_hash keccak sibling cur)
    leaf

/-- `merkle.rs::verify_proof`. -/
def verify_proof (keccak : Bytes → Bytes) (root : Bytes) (proof : MerkleProof) :
    Except CoreError Bytes :=
  if proof.siblings.length ≠ 256 then .error (.Invalid "invalid proof length")
  else if proof.present = false ∧ proof.value ≠ [] then
    .error (.Invalid "absent proof has value bytes")
  else
    let leaf := if proof.present then leaf_hash keccak proof.key proof.value else leaf_hash_absent
    let cur := fold_path keccak proof.key proof.siblings leaf
    if cur ≠ root then .error (.State "merkle proof root mismatch") else .ok cur

/-- `merkle.rs::apply_proof`. -/
def apply_proof (keccak : Bytes → Bytes) (root : Bytes) (proof : MerkleProof)
    (new_value : Option Bytes) : Except CoreError Bytes :=
  if proof.siblings.length ≠ 256 then .error (.Invalid "invalid proof length")
  else
    match verify_proof keccak root proof with
    | .error e => .error e
    | .ok old_root =>
      let new_leaf :=
        match new_value with
        | some bytes => leaf_hash keccak proof.key bytes
        | none => leaf_hash_absent
      let cur := fold_path keccak proof.key proof.siblings new_leaf
      if old_root ≠ root then .error (.State "root changed during apply") else .ok cur

/-! ### state.rs ProofState -/

/-- `state.rs::ProofState`: the evolving root, the owned proof queue and the
ordered list of touched keys. -/
structure ProofState where
  root : Bytes
  proofs : List MerkleProof
  touched_keys : List Bytes
deriving DecidableEq, Repr

/-- `state.rs::ProofState::read_value`: pop the next proof, check its key,
verify it against the current root, record the key, and return the value when
present.  The returned `ProofState` is the mutated receiver. -/
def ProofState.read_value (keccak : Bytes → Bytes) (ps : ProofState) (key : Bytes) :
    Except CoreError (Option Bytes × ProofState) :=
  match ps.proofs with
  | [] => .error (.State "missing proof")
  | proof :: rest =>
    if proof.key ≠ key then .error (.State "proof key mismatch")
    else
      match verify_proof keccak ps.root proof with
      | .error e => .error e
      | .ok _ =>
        let ps' : ProofState :=
          { root := ps.root, proofs := rest, touched_keys := ps.touched_keys ++ [key] }
        .ok (if proof.present then some proof.value else none, ps')

/-- `state.rs::ProofState::write_value`. -/
def ProofState.write_value (keccak : Bytes → Bytes) (ps : ProofState) (key : Bytes)
    (value : Option Bytes) : Except CoreError ProofState :=
  match ps.proofs with
  | [] => .error (.State "missing proof")
  | proof :: rest =>
    if proof.key ≠ key then .error (.State "proof key mismatch")
    else
      match apply_proof keccak ps.root proof value with
      | .error e => .error e
      | .ok new_root =>
        .ok { root := new_root, proofs := rest, touched_keys := ps.touched_keys ++ [key] }

/-! ### types.rs -/

def NONE_ORDER_ID : Nat := 0

inductive Side where
  | Buy
  | Sell
deriving DecidableEq, Repr

/-- `types.rs::Side::from_u8`. -/
def Side.from_u8 (value : Nat) : Except CoreError Side :=
  if value = 0 then .ok .Buy
  else if value = 1 then .ok .Sell
  else .error (.Decode "invalid side")

/-- `types.rs::Side::as_u8`. -/
def Side.as_u8 : Side → Nat
  | .Buy => 0
  | .Sell => 1

/-- `types.rs::Side::opposite`. -/
def Side.opposite : Side → Side
  | .Buy => .Sell
  | .Sell => .Buy

inductive TimeInForce where
  | Gtc
  | Ioc
deriving DecidableEq, Repr

/-- `types.rs::TimeInForce::from_u32`. -/
def TimeInForce.from_u32 (value : Nat) : Except CoreError TimeInForce :=
  if value = 0 then .ok .Gtc
  else if value = 1 then .ok .Ioc
  else .error (.Decode "invalid tif")

inductive OrderStatus where
  | Open
  | Filled
  | Canceled
deriving DecidableEq, Repr

/-- `types.rs::OrderStatus::from_u8`. -/
def OrderStatus.from_u8 (value : Nat) : Except CoreError OrderStatus :=
  if value = 1 then .ok .Open
  else if value = 2 then .ok .Filled
  else if value = 3 then .ok .Canceled
  else .error (.Decode "invalid order status")

structure Balance where
  available : Nat
  locked : Nat
deriving DecidableEq, Repr

/-- `types.rs::Balance::empty`. -/
def Balance.empty : Balance := ⟨0, 0⟩

structure Order where
  owner : Nat
  side : Side
  tick : Int
  qty_remaining : Nat
  tif : TimeInForce
  status : OrderStatus
deriving DecidableEq, Repr

structure OrderNode where
  prev_order_id : Nat
  next_order_id : Nat
deriving DecidableEq, Repr

structure TickNode where
  prev_tick : Int
  next_tick : Int
  head_order_id : Nat
  tail_order_id : Nat
deriving DecidableEq, Repr

structure MarketBest where
  best_bid : Int
  best_ask : Int
deriving DecidableEq, Repr

structure TradeRecord where
  market_id : Nat
  maker_order_id : Nat
  taker_order_id : Nat
  maker : Nat
  taker : Nat
  side_taker : Side
  maker_tick : Int
  qty_base : Nat
  quote_amt : Nat
  taker_fee_quote : Nat
deriving DecidableEq, Repr

structure FeeTotal where
  asset_id : Nat
  total_fee : Nat
deriving DecidableEq, Repr

/-! ### Byte-level decoding (types.rs `decode` impls over big-endian bytes) -/

/-- Big-endian interpretation of a byte string, the inverse of the fixed-width
writers in `encoding.rs`; also used as the opaque `Nat` identity of addresses,
asset ids and order ids. -/
def from_be (bs : Bytes) : Nat := bs.foldl (fun acc b => acc * 256 + b) 0

/-- `i32::from_be_bytes` on the `Nat` value of 4 big-endian bytes. -/
def to_i32 (n : Nat) : Int :=
  if n < 2 ^ 31 then (n : Int) else (n : Int) - 2 ^ 32

/-- `types.rs::Balance::decode`. -/
def Balance.decode (bytes : Bytes) : Except CoreError Balance :=
  if bytes.length ≠ 64 then .error (.Decode "invalid balance length")
  else .ok ⟨from_be (bytes.take 32), from_be (bytes.drop 32)⟩

/-- `types.rs::OrderNode::decode`. -/
def OrderNode.decode (bytes : Bytes) : Except CoreError OrderNode :=
  if bytes.length ≠ 64 then .error (.Decode "invalid order node length")
  else .ok ⟨from_be (bytes.take 32), from_be (bytes.drop 32)⟩

/-- `types.rs::TickNode::decode`. -/
def TickNode.decode (bytes : Bytes) : Except CoreError TickNode :=
  if bytes.length ≠ 72 then .error (.Decode "invalid tick node length")
  else .ok ⟨to_i32 (from_be (bytes.take 4)), to_i32 (from_be ((bytes.drop 4).take 4)),
            from_be ((bytes.drop 8).take 32), from_be (bytes.drop 40)⟩

/-- `types.rs::MarketBest::decode`. -/
def MarketBest.decode (bytes : Bytes) : Except CoreError MarketBest :=
  if bytes.length ≠ 8 then .error (.Decode "invalid market best length")
  else .ok ⟨to_i32 (from_be (bytes.take 4)), to_i32 (from_be (bytes.drop 4))⟩

/-- `types.rs::FeeVault::decode` (the vault is its single `total` field). -/
def FeeVault.decode (bytes : Bytes) : Except CoreError Nat :=
  if bytes.length ≠ 32 then .error (.Decode "invalid fee vault length")
  else .ok (from_be bytes)

/-- `encoding.rs::Reader`, specialised to the sequential reads used by
`types.rs::Order::decode`. -/
structure ByteReader where
  bytes : Bytes
  offset : Nat

/-- `encoding.rs::Reader::read_exact`. -/
def ByteReader.read_exact (r : ByteReader) (len : Nat) :
    Except CoreError (Bytes × ByteReader) :=
  if r.offset + len > r.bytes.length then .error (.Decode "unexpected EOF")
  else .ok ((r.bytes.drop r.offset).take len, ⟨r.bytes, r.offset + len⟩)

/-- `encoding.rs::Reader::expect_finished`. -/
def ByteReader.expect_finished (r : ByteReader) : Except CoreError Unit :=
  if r.offset ≠ r.bytes.length then .error (.Decode "trailing bytes") else .ok ()

/-- `types.rs::Order::decode`. -/
def Order.decode (bytes : Bytes) : Except CoreError Order := do
  let r : ByteReader := ⟨bytes, 0⟩
  let (owner, r) ← r.read_exact 20
  let (side_b, r) ← r.read_exact 1
  let side ← Side.from_u8 (from_be side_b)
  let (tick_b, r) ← r.read_exact 4
  let (qty_b, r) ← r.read_exact 32
  let (tif_b, r) ← r.read_exact 4
  let tif ← TimeInForce.from_u32 (from_be tif_b)
  let (status_b, r) ← r.read_exact 1
  let status ← OrderStatus.from_u8 (from_be status_b)
  r.expect_finished
  pure ⟨from_be owner, side, to_i32 (from_be tick_b), from_be qty_b, tif, status⟩

/-! ### state.rs keys and typed getters over the raw byte store -/

def str_bytes (s : String) : Bytes := s.toList.map Char.toNat

def NS_BAL : Bytes := str_bytes "NS_BAL__________________________"

def NS_NONCE : Bytes := str_bytes "NS_NONCE________________________"

def NS_ORDER : Bytes := str_bytes "NS_ORDER________________________"

def NS_ORDERNODE : Bytes := str_bytes "NS_ORDERNODE____________________"

def NS_TICKNODE : Bytes := str_bytes "NS_TICKNODE_____________________"

def NS_MARKETBEST : Bytes := str_bytes "NS_MARKETBEST___________________"

def NS_FEEVAULT : Bytes := str_bytes "NS_FEEVAULT_____________________"

def nat_be_bytes (len n : Nat) : Bytes :=
  (List.range len).map (fun i => n / 256 ^ (len - 1 - i) % 256)

/-- `i32::to_be_bytes` (two's complement). -/
def i32_be_bytes (t : Int) : Bytes := nat_be_bytes 4 (t.emod (2 ^ 32)).toNat

/-- `state.rs::key_balance`. -/
def key_balance (keccak : Bytes → Bytes) (account asset : Bytes) : Bytes :=
  keccak (NS_BAL ++ 0x1f :: (account ++ asset))

/-- `state.rs::key_nonce`. -/
def key_nonce (keccak : Bytes → Bytes) (account : Bytes) : Bytes :=
  keccak (NS_NONCE ++ 0x1f :: account)

/-- `state.rs::key_order`. -/
def key_order (keccak : Bytes → Bytes) (order_id : Bytes) : Bytes :=
  keccak (NS_ORDER ++ 0x1f :: order_id)

/-- `state.rs::key_order_node`. -/
def key_order_node (keccak : Bytes → Bytes) (order_id : Bytes) : Bytes :=
  keccak (NS_ORDERNODE ++ 0x1f :: order_id)

/-- `state.rs::key_tick_node`. -/
def key_tick_node (keccak : Bytes → Bytes) (market : Bytes) (side : Nat) (tick : Int) : Bytes :=
  keccak (NS_TICKNODE ++ 0x1f :: (market ++ side :: i32_be_bytes tick))

/-- `state.rs::key_market_best`. -/
def key_market_best (keccak : Bytes → Bytes) (market : Bytes) : Bytes :=
  keccak (NS_MARKETBEST ++ 0x1f :: market)

/-- `state.rs::key_fee_vault`. -/
def key_fee_vault (keccak : Bytes → Bytes) (asset : Bytes) : Bytes :=
  keccak (NS_FEEVAULT ++ 0x1f :: asset)

/-- The `StateAccess::read_value` side of a state backend: a fallible read of
optional bytes at a 32-byte key. -/
abbrev RawRead := Bytes → Except CoreError (Option Bytes)

namespace ByteState

/-- `state.rs::get_balance`. -/
def get_balance (keccak : Bytes → Bytes) (read : RawRead) (account asset : Bytes) :
    Except CoreError Balance := do
  match ← read (key_balance keccak account asset) with
  | none => pure Balance.empty
  | some v => Balance.decode v

/-- `state.rs::get_nonce`. -/
def get_nonce (keccak : Bytes → Bytes) (read : RawRead) (account : Bytes) :
    Except CoreError Nat := do
  match ← read (key_nonce keccak account) with
  | none => pure 0
  | some v =>
    if v.length ≠ 8 then throw (.Decode "invalid nonce length")
    else pure (from_be v)

/-- `state.rs::get_order`. -/
def get_order (keccak : Bytes → Bytes) (read : RawRead) (order_id : Bytes) :
    Except CoreError (Option Order) := do
  match ← read (key_order keccak order_id) with
  | none => pure none
  | some v => do pure (some (← Order.decode v))

/-- `state.rs::get_order_node`. -/
def get_order_node (keccak : Bytes → Bytes) (read : RawRead) (order_id : Bytes) :
    Except CoreError OrderNode := do
  match ← read (key_order_node keccak order_id) with
  | none => pure ⟨NONE_ORDER_ID, NONE_ORDER_ID⟩
  | some v => OrderNode.decode v

/-- `state.rs::get_tick_node`. -/
def get_tick_node (keccak : Bytes → Bytes) (read : RawRead) (market : Bytes) (side : Nat)
    (tick : Int) : Except CoreError TickNode := do
  match ← read (key_tick_node keccak market side tick) with
  | none => pure ⟨NONE_TICK, NONE_TICK, NONE_ORDER_ID, NONE_ORDER_ID⟩
  | some v => TickNode.decode v

/-- `state.rs::get_market_best`. -/
def get_market_best (keccak : Bytes → Bytes) (read : RawRead) (market : Bytes) :
    Except CoreError MarketBest := do
  match ← read (key_market_best keccak market) with
  | none => pure ⟨NONE_TICK, NONE_TICK⟩
  | some v => MarketBest.decode v

/-- `state.rs::get_fee_vault` (returning the vault's `total`). -/
def get_fee_vault (keccak : Bytes → Bytes) (read : RawRead) (asset : Bytes) :
    Except CoreError Nat := do
  match ← read (key_fee_vault keccak asset) with
  | none => pure 0
  | some v => FeeVault.decode v

end ByteState

/-! ### Typed engine state

The engine (`engine.rs`) reads and writes state only through the typed
getters/setters of `state.rs`.  Their keccak-derived keys are injective on the
structured pre-images (up to keccak collisions), so the engine-level state is
modelled as association lists keyed by the structured data, with the absent
defaults of `state.rs` built into the getters. -/

def kvGet {α β : Type} [DecidableEq α] : List (α × β) → α → Option β
  | [], _ => none
  | (k', v) :: rest, k => if k' = k then some v else kvGet rest k

def kvSet {α β : Type} [DecidableEq α] : List (α × β) → α → β → List (α × β)
  | [], k, v => [(k, v)]
  | (k', v') :: rest, k, v =>
    if k' = k then (k, v) :: rest else (k', v') :: kvSet rest k v

structure EngineState where
  balances : List ((Nat × Nat) × Balance)
  nonces : List (Nat × Nat)
  orders : List (Nat × Order)
  orderNodes : List (Nat × OrderNode)
  tickNodes : List ((Nat × Nat × Int) × TickNode)
  marketBests : List (Nat × MarketBest)
  feeVaults : List (Nat × Nat)
deriving DecidableEq, Repr

/-- `state.rs::get_balance` over the typed state (absent ⇒ `Balance::empty`). -/
def get_balance (s : EngineState) (account asset : Nat) : Balance :=
  (kvGet s.balances (account, asset)).getD Balance.empty

/-- `state.rs::set_balance` over the typed state. -/
def set_balance (s : EngineState) (account asset : Nat) (b : Balance) : EngineState :=
  { s with balances := kvSet s.balances (account, asset) b }

/-- `state.rs::get_nonce` over the typed state (absent ⇒ 0). -/
def get_nonce (s : EngineState) (account : Nat) : Nat :=
  (kvGet s.nonces account).getD 0

/-- `state.rs::set_nonce` over the typed state. -/
def set_nonce (s : EngineState) (account nonce : Nat) : EngineState :=
  { s with nonces := kvSet s.nonces account nonce }

/-- `state.rs::get_order` over the typed state (absent ⇒ `None`). -/
def get_order (s : EngineState) (order_id : Nat) : Option Order :=
  kvGet s.orders order_id

/-- `state.rs::set_order` over the typed state. -/
def set_order (s : EngineState) (order_id : Nat) (o : Order) : EngineState :=
  { s with orders := kvSet s.orders order_id o }

/-- `state.rs::get_order_node` over the typed state (absent ⇒ both `NONE_ORDER_ID`). -/
def get_order_node (s : EngineState) (order_id : Nat) : OrderNode :=
  (kvGet s.orderNodes order_id).getD ⟨NONE_ORDER_ID, NONE_ORDER_ID⟩

/-- `state.rs::set_order_node` over the typed state. -/
def set_order_node (s : EngineState) (order_id : Nat) (n : OrderNode) : EngineState :=
  { s with orderNodes := kvSet s.orderNodes order_id n }

/-- `state.rs::get_tick_node` over the typed state (absent ⇒ zero node). -/
def get_tick_node (s : EngineState) (market : Nat) (side : Nat) (tick : Int) : TickNode :=
  (kvGet s.tickNodes (market, side, tick)).getD ⟨NONE_TICK, NONE_TICK, NONE_ORDER_ID, NONE_ORDER_ID⟩

/-- `state.rs::set_tick_node` over the typed state. -/
def set_tick_node (s : EngineState) (market : Nat) (side : Nat) (tick : Int) (n : TickNode) :
    EngineState :=
  { s with tickNodes := kvSet s.tickNodes (market, side, tick) n }

/-- `state.rs::get_market_best` over the typed state (absent ⇒ both `NONE_TICK`). -/
def get_market_best (s : EngineState) (market : Nat) : MarketBest :=
  (kvGet s.marketBests market).getD ⟨NONE_TICK, NONE_TICK⟩

/-- `state.rs::set_market_best` over the typed state. -/
def set_market_best (s : EngineState) (market : Nat) (b : MarketBest) : EngineState :=
  { s with marketBests := kvSet s.marketBests market b }

/-- `state.rs::get_fee_vault` over the typed state (absent ⇒ zero total). -/
def get_fee_vault (s : EngineState) (asset : Nat) : Nat :=
  (kvGet s.feeVaults asset).getD 0

/-- `state.rs::set_fee_vault` over the typed state. -/
def set_fee_vault (s : EngineState) (asset total : Nat) : EngineState :=
  { s with feeVaults := kvSet s.feeVaults asset total }

/-- Σ (available + locked) over all stored balances of one asset. -/
def asset_total (s : EngineState) (asset : Nat) : Nat :=
  s.balances.foldl
    (fun acc p => if p.1.2 = asset then acc + p.2.available + p.2.locked else acc) 0

/-- The conservation quantity of §8.1: Σ (available + locked) + fee vault. -/
def conserved_total (s : EngineState) (asset : Nat) : Nat :=
  asset_total s asset + get_fee_vault s asset

/-! ### input.rs (rules and messages) -/

structure Rules where
  base_asset_id : Nat
  quote_asset_id : Nat
  price_scale : Nat
  tick_size : Nat
  lot_size : Nat
  taker_fee_bps : Nat
  maker_fee_bps : Nat
  max_orders_per_batch : Nat
  max_matches_per_order : Nat
  max_balance : Nat
deriving DecidableEq, Repr

inductive Message where
  | Place (trader : Nat) (nonce : Nat) (order_id : Nat) (side : Side) (tif : TimeInForce)
      (tick_index : Int) (qty_base : Nat) (prev_tick_hint : Int) (next_tick_hint : Int)
  | Cancel (trader : Nat) (nonce : Nat) (order_id : Nat)
deriving DecidableEq, Repr

def Message.trader : Message → Nat
  | .Place trader _ _ _ _ _ _ _ _ => trader
  | .Cancel trader _ _ => trader

def Message.nonce : Message → Nat
  | .Place _ nonce _ _ _ _ _ _ _ => nonce
  | .Cancel _ nonce _ => nonce

/-- A signed message; the 65-byte signature is opaque to the engine model. -/
structure SignedMessage where
  message : Message
  signature : Nat
deriving DecidableEq, Repr

/-- The signature-recovery oracle standing for `verify.rs::verify_signature`
(domain separator, message, signature, expected trader address). -/
abbrev SigVerifier := Nat → Message → Nat → Nat → Except CoreError Unit

/-! ### verify.rs helpers used by the engine -/

/-- `verify.rs::price_from_tick`: negative ticks fail; price = tick_size · tick. -/
def price_from_tick (tick_index : Int) (tick_size : Nat) : Except CoreError Nat :=
  if tick_index < 0 then .error (.Invalid "negative tick")
  else .ok (tick_size * tick_index.toNat)

/-- `verify.rs::check_lot_size`. -/
def check_lot_size (qty lot_size : Nat) : Except CoreError Unit :=
  if lot_size = 0 then .error (.Invalid "lot size zero")
  else if qty % lot_size ≠ 0 then .error (.Invalid "qty not lot multiple")
  else .ok ()

/-! ### engine.rs -/

structure BatchOutput where
  trades : List TradeRecord
  fee_totals : List FeeTotal
deriving DecidableEq, Repr

/-- `engine.rs::ensure_balance_limit`. -/
def ensure_balance_limit (balance : Balance) (max_balance : Nat) : Except CoreError Unit :=
  if balance.available > max_balance ∨ balance.locked > max_balance then
    .error (.Invalid "balance exceeds maxBalance")
  else .ok ()

/-- `engine.rs::release_remaining`: the inverse of the pre-lock for the
unfilled remainder (Buy releases ⌈price·remaining/price_scale⌉ quote, Sell
releases `remaining` base). -/
def release_remaining (s : EngineState) (trader : Nat) (side : Side) (remaining price : Nat)
    (rules : Rules) : Except CoreError EngineState := do
  match side with
  | .Buy =>
    let release ← mul_div_up price remaining rules.price_scale
    let bal := get_balance s trader rules.quote_asset_id
    if bal.locked < release then throw (.Invalid "locked quote insufficient")
    else
      let bal : Balance := ⟨bal.available + release, bal.locked - release⟩
      let _ ← ensure_balance_limit bal rules.max_balance
      pure (set_balance s trader rules.quote_asset_id bal)
  | .Sell =>
    let bal := get_balance s trader rules.base_asset_id
    if bal.locked < remaining then throw (.Invalid "locked base insufficient")
    else
      let bal : Balance := ⟨bal.available + remaining, bal.locked - remaining⟩
      let _ ← ensure_balance_limit bal rules.max_balance
      pure (set_balance s trader rules.base_asset_id bal)

/-- `engine.rs::verify_tick_hints` (new-tick insertion checks). -/
def verify_tick_hints (s : EngineState) (market_id : Nat) (side : Side) (tick prev_tick next_tick : Int)
    (best : MarketBest) : Except CoreError Unit :=
  (if prev_tick ≠ NONE_TICK then
    let prev_node := get_tick_node s market_id side.as_u8 prev_tick
    if prev_node.next_tick ≠ next_tick then .error (.Invalid "prev tick hint mismatch")
    else if side = .Buy ∧ prev_tick ≤ tick then .error (.Invalid "bid prev tick order")
    else if side = .Sell ∧ prev_tick ≥ tick then .error (.Invalid "ask prev tick order")
    else .ok ()
  else
    match side with
    | .Buy =>
      if best.best_bid ≠ next_tick ∧ best.best_bid ≠ NONE_TICK then
        .error (.Invalid "best bid mismatch")
      else .ok ()
    | .Sell =>
      if best.best_ask ≠ next_tick ∧ best.best_ask ≠ NONE_TICK then
        .error (.Invalid "best ask mismatch")
      else .ok ()) >>= fun _ =>
  if next_tick ≠ NONE_TICK then
    let next_node := get_tick_node s market_id side.as_u8 next_tick
    if next_node.prev_tick ≠ prev_tick then .error (.Invalid "next tick hint mismatch")
    else if side = .Buy ∧ next_tick ≥ tick then .error (.Invalid "bid next tick order")
    else if side = .Sell ∧ next_tick ≤ tick then .error (.Invalid "ask next tick order")
    else .ok ()
  else .ok ()

/-- `engine.rs::place_resting`: append to the tail of the tick's order list;
when the tick is newly activated, validate the hints, splice the TickNode into
the tick list and update the market best.  Returns the updated state and the
(possibly updated) best. -/
def place_resting (s : EngineState) (market_id : Nat) (order_id trader : Nat) (side : Side)
    (tick : Int) (qty_remaining : Nat) (tif : TimeInForce) (prev_tick_hint next_tick_hint : Int)
    (best : MarketBest) : Except CoreError (EngineState × MarketBest) := do
  let tick_node := get_tick_node s market_id side.as_u8 tick
  let active := tick_node.head_order_id ≠ NONE_ORDER_ID
  let old_tail := if active then tick_node.tail_order_id else NONE_ORDER_ID
  let stb ←
    if ¬ active then do
      let _ ← verify_tick_hints s market_id side tick prev_tick_hint next_tick_hint best
      let tick_node : TickNode :=
        ⟨prev_tick_hint, next_tick_hint, order_id, order_id⟩
      let s :=
        if prev_tick_hint ≠ NONE_TICK then
          let prev_node := get_tick_node s market_id side.as_u8 prev_tick_hint
          set_tick_node s market_id side.as_u8 prev_tick_hint { prev_node with next_tick := tick }
        else s
      let s :=
        if next_tick_hint ≠ NONE_TICK then
          let next_node := get_tick_node s market_id side.as_u8 next_tick_hint
          set_tick_node s market_id side.as_u8 next_tick_hint { next_node with prev_tick := tick }
        else s
      let best :=
        match side with
        | .Buy =>
          if best.best_bid = NONE_TICK ∨ tick > best.best_bid then
            { best with best_bid := tick }
          else best
        | .Sell =>
          if best.best_ask = NONE_TICK ∨ tick < best.best_ask then
            { best with best_ask := tick }
          else best
      let s := set_market_best s market_id best
      pure (s, tick_node, best)
    else do
      let tail_id := tick_node.tail_order_id
      let s :=
        if tail_id ≠ NONE_ORDER_ID then
          let tail_node := get_order_node s tail_id
          set_order_node s tail_id { tail_node with next_order_id := order_id }
        else s
      pure (s, { tick_node with tail_order_id := order_id }, best)
  let s := set_tick_node stb.1 market_id side.as_u8 tick stb.2.1
  let s := set_order s order_id ⟨trader, side, tick, qty_remaining, tif, .Open⟩
  let s := set_order_node s order_id ⟨old_tail, NONE_ORDER_ID⟩
  pure (s, stb.2.2)

/-- `engine.rs::remove_from_book`: unlink an order from its tick's list; when
the list empties, unlink and zero the TickNode and maybe advance the best. -/
def remove_from_book (s : EngineState) (market_id : Nat) (side : Side) (tick : Int)
    (order_id : Nat) : EngineState :=
  let tick_node := get_tick_node s market_id side.as_u8 tick
  let order_node := get_order_node s order_id
  let prev_id := order_node.prev_order_id
  let next_id := order_node.next_order_id
  let st :=
    if prev_id ≠ NONE_ORDER_ID then
      let prev_node := get_order_node s prev_id
      (set_order_node s prev_id { prev_node with next_order_id := next_id }, tick_node)
    else
      (s, { tick_node with head_order_id := next_id })
  let st :=
    if next_id ≠ NONE_ORDER_ID then
      let next_node := get_order_node st.1 next_id
      (set_order_node st.1 next_id { next_node with prev_order_id := prev_id }, st.2)
    else
      (st.1, { st.2 with tail_order_id := prev_id })
  let s := set_order_node st.1 order_id ⟨NONE_ORDER_ID, NONE_ORDER_ID⟩
  let tick_node := st.2
  if tick_node.head_order_id = NONE_ORDER_ID then
    let prev_tick := tick_node.prev_tick
    let next_tick := tick_node.next_tick
    let s :=
      if prev_tick ≠ NONE_TICK then
        let prev_node := get_tick_node s market_id side.as_u8 prev_tick
        set_tick_node s market_id side.as_u8 prev_tick { prev_node with next_tick := next_tick }
      else s
    let s :=
      if next_tick ≠ NONE_TICK then
        let next_node := get_tick_node s market_id side.as_u8 next_tick
        set_tick_node s market_id side.as_u8 next_tick { next_node with prev_tick := prev_tick }
      else s
    let best := get_market_best s market_id
    let best :=
      match side with
      | .Buy => if best.best_bid = tick then { best with best_bid := next_tick } else best
      | .Sell => if best.best_ask = tick then { best with best_ask := next_tick } else best
    let s := set_tick_node s market_id side.as_u8 tick
      ⟨NONE_TICK, NONE_TICK, NONE_ORDER_ID, NONE_ORDER_ID⟩
    set_market_best s market_id best
  else
    set_tick_node s market_id side.as_u8 tick tick_node

/-- The per-fill settlement block of `engine.rs::apply_batch`
(lines 147–206): read the four balances, apply the four updates, re-check the
balance limit after each, and write the four balances back in order. -/
def settle_fill (rules : Rules) (trader maker_owner : Nat) (side : Side)
    (fill_qty quote_amt fee : Nat) (s : EngineState) : Except CoreError EngineState := do
  match side with
  | .Buy =>
    let taker_quote := get_balance s trader rules.quote_asset_id
    let taker_base := get_balance s trader rules.base_asset_id
    let maker_base := get_balance s maker_owner rules.base_asset_id
    let maker_quote := get_balance s maker_owner rules.quote_asset_id
    let spend := quote_amt + fee
    if taker_quote.locked < spend then throw (.Invalid "taker locked quote insufficient")
    else if maker_base.locked < fill_qty then throw (.Invalid "maker locked base insufficient")
    else
      let taker_quote : Balance := { taker_quote with locked := taker_quote.locked - spend }
      let taker_base : Balance := { taker_base with available := taker_base.available + fill_qty }
      let maker_base : Balance := { maker_base with locked := maker_base.locked - fill_qty }
      let maker_quote : Balance := { maker_quote with available := maker_quote.available + quote_amt }
      let _ ← ensure_balance_limit taker_quote rules.max_balance
      let _ ← ensure_balance_limit taker_base rules.max_balance
      let _ ← ensure_balance_limit maker_base rules.max_balance
      let _ ← ensure_balance_limit maker_quote rules.max_balance
      let s := set_balance s trader rules.quote_asset_id taker_quote
      let s := set_balance s trader rules.base_asset_id taker_base
      let s := set_balance s maker_owner rules.base_asset_id maker_base
      let s := set_balance s maker_owner rules.quote_asset_id maker_quote
      pure s
  | .Sell =>
    let taker_base := get_balance s trader rules.base_asset_id
    let taker_quote := get_balance s trader rules.quote_asset_id
    let maker_base := get_balance s maker_owner rules.base_asset_id
    let maker_quote := get_balance s maker_owner rules.quote_asset_id
    if taker_base.locked < fill_qty then throw (.Invalid "taker locked base insufficient")
    else if maker_quote.locked < quote_amt then throw (.Invalid "maker locked quote insufficient")
    else if quote_amt < fee then throw (.Math "fee exceeds quote")
    else
      let receive := quote_amt - fee
      let taker_base : Balance := { taker_base with locked := taker_base.locked - fill_qty }
      let taker_quote : Balance := { taker_quote with available := taker_quote.available + receive }
      let maker_quote : Balance := { maker_quote with locked := maker_quote.locked - quote_amt }
      let maker_base : Balance := { maker_base with available := maker_base.available + fill_qty }
      let _ ← ensure_balance_limit taker_base rules.max_balance
      let _ ← ensure_balance_limit taker_quote rules.max_balance
      let _ ← ensure_balance_limit maker_base rules.max_balance
      let _ ← ensure_balance_limit maker_quote rules.max_balance
      let s := set_balance s trader rules.base_asset_id taker_base
      let s := set_balance s trader rules.quote_asset_id taker_quote
      let s := set_balance s maker_owner rules.base_asset_id maker_base
      let s := set_balance s maker_owner rules.quote_asset_id maker_quote
      pure s

/-- The loop-carried data of the inner match loop. -/
structure FillAcc where
  s : EngineState
  tick_node : TickNode
  remaining : Nat
  matches_ctr : Nat
  trades : List TradeRecord
  fee_totals : List (Nat × Nat)

/-- The filled-maker pop of the match loop (`engine.rs::apply_batch`
lines 236–251): advance the tick head past the filled maker, fix the next
order's back pointer, and clear the maker's OrderNode. -/
def pop_filled_maker (s : EngineState) (tick_node : TickNode) (maker_order_id : Nat) :
    EngineState × TickNode :=
  let maker_node := get_order_node s maker_order_id
  let next_id := maker_node.next_order_id
  let tick_node := { tick_node with head_order_id := next_id }
  let st :=
    if next_id = NONE_ORDER_ID then
      (s, { tick_node with tail_order_id := NONE_ORDER_ID })
    else
      let next_node := get_order_node s next_id
      (set_order_node s next_id { next_node with prev_order_id := NONE_ORDER_ID }, tick_node)
  (set_order_node st.1 maker_order_id ⟨NONE_ORDER_ID, NONE_ORDER_ID⟩, st.2)

/-- One iteration body of the inner `while` of the match loop
(`engine.rs::apply_batch` lines 125–252), entered with
`tick_node.head_order_id ≠ NONE_ORDER_ID` and `remaining ≠ 0`. -/
def fill_step (market_id : Nat) (rules : Rules) (trader order_id : Nat) (side : Side)
    (tick_price : Nat) (acc : FillAcc) : Except CoreError FillAcc := do
  if acc.matches_ctr ≥ rules.max_matches_per_order then
    throw (.Invalid "maxMatchesPerOrder exceeded")
  else
    let matches_ctr := acc.matches_ctr + 1
    let maker_order_id := acc.tick_node.head_order_id
    match get_order acc.s maker_order_id with
    | none => throw (.Invalid "maker order missing")
    | some maker_order =>
      if maker_order.status ≠ .Open then throw (.Invalid "maker order not open")
      else if maker_order.side = side then throw (.Invalid "maker side mismatch")
      else
        let fill_qty :=
          if acc.remaining < maker_order.qty_remaining then acc.remaining
          else maker_order.qty_remaining
        let quote_amt ← mul_div_down tick_price fill_qty rules.price_scale
        let fee ← mul_div_up quote_amt rules.taker_fee_bps 10000
        let s ← settle_fill rules trader maker_order.owner side fill_qty quote_amt fee acc.s
        let fee_asset := rules.quote_asset_id
        let fee_totals := kvSet acc.fee_totals fee_asset ((kvGet acc.fee_totals fee_asset).getD 0 + fee)
        let fee_vault := get_fee_vault s fee_asset
        let s := set_fee_vault s fee_asset (fee_vault + fee)
        let maker_order : Order := { maker_order with qty_remaining := maker_order.qty_remaining - fill_qty }
        let maker_order : Order :=
          if maker_order.qty_remaining = 0 then { maker_order with status := .Filled } else maker_order
        let s := set_order s maker_order_id maker_order
        let trades := acc.trades ++ [{
          market_id := market_id
          maker_order_id := maker_order_id
          taker_order_id := order_id
          maker := maker_order.owner
          taker := trader
          side_taker := side
          maker_tick := maker_order.tick
          qty_base := fill_qty
          quote_amt := quote_amt
          taker_fee_quote := fee : TradeRecord }]
        let remaining := acc.remaining - fill_qty
        let st2 :=
          if maker_order.status = .Filled then pop_filled_maker s acc.tick_node maker_order_id
          else (s, acc.tick_node)
        pure ⟨st2.1, st2.2, remaining, matches_ctr, trades, fee_totals⟩

/-- The inner `while` of the match loop: consume head orders at the current
tick while the tick list is non-empty and quantity remains. -/
def match_at_tick (fuel : Nat) (market_id : Nat) (rules : Rules) (trader order_id : Nat)
    (side : Side) (tick_price : Nat) (acc : FillAcc) : Except CoreError FillAcc := do
  match fuel with
  | 0 => throw (.Invalid "fuel exhausted")
  | fuel + 1 =>
    if acc.tick_node.head_order_id = NONE_ORDER_ID ∨ acc.remaining = 0 then pure acc
    else do
      let acc ← fill_step market_id rules trader order_id side tick_price acc
      match_at_tick fuel market_id rules trader order_id side tick_price acc

/-- The outer tick-walk of the match loop (`engine.rs::apply_batch`
lines 107–299): walk the opposite side from its best while a crossing tick
exists, clean up depleted ticks and stop when the remainder is zero. -/
def match_loop (fuel : Nat) (market_id : Nat) (rules : Rules) (trader order_id : Nat)
    (side : Side) (limit_price : Nat) (s : EngineState) (best : MarketBest)
    (remaining matches_ctr : Nat) (trades : List TradeRecord) (fee_totals : List (Nat × Nat)) :
    Except CoreError (EngineState × MarketBest × Nat × Nat × List TradeRecord × List (Nat × Nat)) := do
  match fuel with
  | 0 => throw (.Invalid "fuel exhausted")
  | fuel + 1 =>
    let current_tick := match side with | .Buy => best.best_ask | .Sell => best.best_bid
    if current_tick = NONE_TICK then pure (s, best, remaining, matches_ctr, trades, fee_totals)
    else do
      let tick_price ← price_from_tick current_tick rules.tick_size
      let price_ok : Bool :=
        match side with
        | .Buy => decide (tick_price ≤ limit_price)
        | .Sell => decide (tick_price ≥ limit_price)
      if price_ok = false ∨ remaining = 0 then pure (s, best, remaining, matches_ctr, trades, fee_totals)
      else do
        let tick_node := get_tick_node s market_id side.opposite.as_u8 current_tick
        let acc ← match_at_tick (fuel + 1) market_id rules trader order_id side tick_price
          ⟨s, tick_node, remaining, matches_ctr, trades, fee_totals⟩
        let s := acc.s
        let tick_node := acc.tick_node
        let sb ←
          if tick_node.head_order_id = NONE_ORDER_ID then do
            let prev_tick := tick_node.prev_tick
            let next_tick := tick_node.next_tick
            let s :=
              if prev_tick ≠ NONE_TICK then
                let prev_node := get_tick_node s market_id side.opposite.as_u8 prev_tick
                set_tick_node s market_id side.opposite.as_u8 prev_tick
                  { prev_node with next_tick := next_tick }
              else s
            let s :=
              if next_tick ≠ NONE_TICK then
                let next_node := get_tick_node s market_id side.opposite.as_u8 next_tick
                set_tick_node s market_id side.opposite.as_u8 next_tick
                  { next_node with prev_tick := prev_tick }
              else s
            let best :=
              match side with
              | .Buy => if best.best_ask = current_tick then { best with best_ask := next_tick } else best
              | .Sell => if best.best_bid = current_tick then { best with best_bid := next_tick } else best
            let s := set_tick_node s market_id side.opposite.as_u8 current_tick
              ⟨NONE_TICK, NONE_TICK, NONE_ORDER_ID, NONE_ORDER_ID⟩
            pure (set_market_best s market_id best, best)
          else
            pure (set_tick_node s market_id side.opposite.as_u8 current_tick tick_node, best)
        if acc.remaining = 0 then
          pure (sb.1, sb.2, acc.remaining, acc.matches_ctr, acc.trades, acc.fee_totals)
        else
          match_loop fuel market_id rules trader order_id side limit_price sb.1 sb.2
            acc.remaining acc.matches_ctr acc.trades acc.fee_totals

/-- The `Message::Place` arm of `engine.rs::apply_batch` (lines 59–361):
duplicate-id / qty / lot / tick checks, the pre-lock, the match loop and the
post-match TIF handling. -/
def process_place (fuel : Nat) (market_id : Nat) (rules : Rules) (s : EngineState)
    (trader order_id : Nat) (side : Side) (tif : TimeInForce) (tick_index : Int)
    (qty_base : Nat) (prev_tick_hint next_tick_hint : Int)
    (trades : List TradeRecord) (fee_totals : List (Nat × Nat)) :
    Except CoreError (EngineState × List TradeRecord × List (Nat × Nat)) := do
  if (get_order s order_id).isSome then throw (.Invalid "order id already exists")
  else if qty_base = 0 then throw (.Invalid "qtyBase zero")
  else do
    let _ ← check_lot_size qty_base rules.lot_size
    let price ← price_from_tick tick_index rules.tick_size
    let remaining := qty_base
    let limit_price := price
    let balance_quote := get_balance s trader rules.quote_asset_id
    let balance_base := get_balance s trader rules.base_asset_id
    let s ←
      match side with
      | .Buy => do
        let lock_quote ← mul_div_up price qty_base rules.price_scale
        if balance_quote.available < lock_quote then
          throw (.Invalid "insufficient quote balance")
        else
          pure (set_balance s trader rules.quote_asset_id
            ⟨balance_quote.available - lock_quote, balance_quote.locked + lock_quote⟩)
      | .Sell =>
        if balance_base.available < qty_base then
          throw (.Invalid "insufficient base balance")
        else
          pure (set_balance s trader rules.base_asset_id
            ⟨balance_base.available - qty_base, balance_base.locked + qty_base⟩)
    let best := get_market_best s market_id
    let ml ←
      match_loop fuel market_id rules trader order_id side limit_price s best remaining 0
        trades fee_totals
    match tif with
    | .Ioc => do
      let s ←
        if ml.2.2.1 ≠ 0 then release_remaining ml.1 trader side ml.2.2.1 price rules
        else pure ml.1
      let s := set_order s order_id
        ⟨trader, side, tick_index, 0, tif, if ml.2.2.1 = 0 then .Filled else .Canceled⟩
      pure (s, ml.2.2.2.2.1, ml.2.2.2.2.2)
    | .Gtc =>
      if ml.2.2.1 = 0 then
        pure (set_order ml.1 order_id ⟨trader, side, tick_index, 0, tif, .Filled⟩,
          ml.2.2.2.2.1, ml.2.2.2.2.2)
      else do
        let pr ← place_resting ml.1 market_id order_id trader side tick_index ml.2.2.1 tif
          prev_tick_hint next_tick_hint ml.2.1
        pure (pr.1, ml.2.2.2.2.1, ml.2.2.2.2.2)

/-- One iteration of the per-message loop of `engine.rs::apply_batch`
(lines 41–377): signature check, nonce check and write-back, then dispatch. -/
def process_message (fuel : Nat) (verify_sig : SigVerifier) (market_id : Nat) (rules : Rules)
    (domain_sep : Nat) (s : EngineState) (trades : List TradeRecord)
    (fee_totals : List (Nat × Nat)) (signed : SignedMessage) :
    Except CoreError (EngineState × List TradeRecord × List (Nat × Nat)) := do
  let message := signed.message
  let trader := message.trader
  let _ ← verify_sig domain_sep message signed.signature trader
  let nonce_value := message.nonce
  let current_nonce := get_nonce s trader
  if nonce_value ≠ current_nonce + 1 then throw (.Invalid "nonce mismatch")
  else
    let s := set_nonce s trader nonce_value
    match message with
    | .Place trader order_nonce order_id side tif tick_index qty_base prev_hint next_hint =>
      let _ := order_nonce
      process_place fuel market_id rules s trader order_id side tif tick_index qty_base
        prev_hint next_hint trades fee_totals
    | .Cancel trader _ order_id =>
      match get_order s order_id with
      | none => throw (.Invalid "order missing")
      | some order =>
        if order.owner ≠ trader then throw (.Invalid "cancel owner mismatch")
        else if order.status ≠ .Open then throw (.Invalid "order not open")
        else do
          let price ← price_from_tick order.tick rules.tick_size
          let s ← release_remaining s trader order.side order.qty_remaining price rules
          let order : Order := { order with qty_remaining := 0, status := .Canceled }
          let s := set_order s order_id order
          pure (remove_from_book s market_id order.side order.tick order_id, trades, fee_totals)

/-- The message fold of `engine.rs::apply_batch`. -/
def apply_messages (fuel : Nat) (verify_sig : SigVerifier) (market_id : Nat) (rules : Rules)
    (domain_sep : Nat) (messages : List SignedMessage) (s : EngineState)
    (trades : List TradeRecord) (fee_totals : List (Nat × Nat)) :
    Except CoreError (EngineState × List TradeRecord × List (Nat × Nat)) := do
  match messages with
  | [] => pure (s, trades, fee_totals)
  | signed :: rest =>
    let r ←
      process_message fuel verify_sig market_id rules domain_sep s trades fee_totals signed
    apply_messages fuel verify_sig market_id rules domain_sep rest r.1 r.2.1 r.2.2

def sorted_insert_fee (p : Nat × Nat) : List (Nat × Nat) → List (Nat × Nat)
  | [] => [p]
  | q :: rest => if p.1 ≤ q.1 then p :: q :: rest else q :: sorted_insert_fee p rest

/-- The ascending-key iteration of the `BTreeMap` of fee totals at the end of
`engine.rs::apply_batch`. -/
def fee_totals_vec (l : List (Nat × Nat)) : List FeeTotal :=
  (l.foldr sorted_insert_fee []).map (fun p => ⟨p.1, p.2⟩)

/-- `engine.rs::apply_batch`: prebatch checks, the per-message fold, and the
final fee-total vector.  Returns the mutated state together with the
`BatchOutput`. -/
def apply_batch (fuel : Nat) (verify_sig : SigVerifier) (market_id : Nat) (rules : Rules)
    (domain_sep : Nat) (messages : List SignedMessage) (s : EngineState) :
    Except CoreError (EngineState × BatchOutput) := do
  if messages.length > rules.max_orders_per_batch then
    throw (.Invalid "maxOrdersPerBatch exceeded")
  else if rules.price_scale ≠ 1000000000000000000 then
    throw (.Invalid "priceScale must be 1e18")
  else if rules.maker_fee_bps ≠ 0 then
    throw (.Invalid "makerFeeBps must be zero")
  else do
    let (s, trades, fee_totals) ←
      apply_messages fuel verify_sig market_id rules domain_sep messages s [] []
    pure (s, ⟨trades, fee_totals_vec fee_totals⟩)

/-! ### Concrete scenario data used by closed theorems -/

/-- A signature oracle that accepts every message (signature recovery is
external to the engine logic under study). -/
def vs_ok : SigVerifier := fun _ _ _ _ => .ok ()

/-- Rules of the seed scenarios: price_scale = tick_size = 10^18, lot 1,
zero fees, max_balance 10^6; base asset 1, quote asset 2. -/
def rulesA : Rules := ⟨1, 2, 10 ^ 18, 10 ^ 18, 1, 0, 0, 128, 64, 1000000⟩

/-- Pre-state for the self-trade scenario: trader 7 owns the resting Sell
order 9 (tick 1, qty 5, base locked 5) and holds 5 quote available. -/
def c1_pre : EngineState :=
  ⟨[((7, 2), ⟨5, 0⟩), ((7, 1), ⟨0, 5⟩)], [], [(9, ⟨7, .Sell, 1, 5, .Gtc, .Open⟩)], [],
   [((3, 1, 1), ⟨NONE_TICK, NONE_TICK, 9, 9⟩)], [(3, ⟨NONE_TICK, 1⟩)], []⟩

/-- Trader 7 buys IOC at tick 1 qty 5 against their own resting Sell. -/
def c1_msg : SignedMessage := ⟨.Place 7 1 8 .Buy .Ioc 1 5 NONE_TICK NONE_TICK, 0⟩

/-- Rules identical to `rulesA` but with `max_balance = 10`. -/
def rulesB : Rules := ⟨1, 2, 10 ^ 18, 10 ^ 18, 1, 0, 0, 128, 64, 10⟩

/-- Pre-state for the pre-lock scenario: trader 7 holds base (available 5,
locked 10 = max_balance). -/
def c3_pre : EngineState := ⟨[((7, 1), ⟨5, 10⟩)], [], [], [], [], [], []⟩

/-- Trader 7 places a GTC Sell for 5 base on an empty book. -/
def c3_msg : SignedMessage := ⟨.Place 7 1 8 .Sell .Gtc 1 5 NONE_TICK NONE_TICK, 0⟩

/-- Pre-state for the tick-hint scenario: empty book, trader 7 holds 5 quote;
no TickNode is stored anywhere. -/
def c5_pre : EngineState := ⟨[((7, 2), ⟨5, 0⟩)], [], [], [], [], [], []⟩

/-- Trader 7 places a GTC Buy at tick 1 with `prev_tick_hint = 2` pointing at
a tick node that does not exist. -/
def c5_msg : SignedMessage := ⟨.Place 7 1 8 .Buy .Gtc 1 5 2 NONE_TICK, 0⟩

/-! ### Theorems -/

def mul_div_down_eq (a b d : Nat) :
    mul_div_down a b d =
      if d = 0 then .error (.Math "division by zero")
      else if a * b / d < U256_LIMIT then .ok (a * b / d)
      else .error (.Math "mul_div overflow") := rfl

def mul_div_up_num (a b d : Nat) : Nat := if a * b = 0 then a * b else a * b + d - 1

def mul_div_up_eq (a b d : Nat) :
    mul_div_up a b d =
      if d = 0 then .error (.Math "division by zero")
      else if mul_div_up_num a b d / d < U256_LIMIT then .ok (mul_div_up_num a b d / d)
      else .error (.Math "mul_div overflow") := rfl

/-- The ceiling numerator divided by `d` is the same whether or not the
product is zero-cased. -/
theorem mul_div_up_num_div (a b d : Nat) (hd : d ≠ 0) :
    mul_div_up_num a b d / d = (a * b + d - 1) / d := by
  unfold mul_div_up_num
  by_cases hp : a * b = 0
  · rw [if_pos hp, hp, Nat.zero_div]
    exact (Nat.div_eq_of_lt (by omega)).symm
  · rw [if_neg hp]

/-- **C7.** For all 256-bit `a`, `b`, `d`: `mul_div_down` returns ⌊a·b/d⌋ and
`mul_div_up` returns ⌈a·b/d⌉ (characterised by `a·b ≤ q·d < a·b + d`),
computed exactly; both fail exactly when `d = 0` or the mathematical result
exceeds `2^256 − 1`; `mul_div_up` returns 0 when `a·b = 0`; and
`mul_div_down(2^256−1, 2^256−1, 2^256−1) = 2^256−1`. -/
theorem C7_mul_div_exact (a b d : Nat) (_ha : a < U256_LIMIT) (_hb : b < U256_LIMIT)
    (_hd : d < U256_LIMIT) :
    (∀ q, mul_div_down a b d = .ok q → q = a * b / d) ∧
    (∀ q, mul_div_up a b d = .ok q → a * b ≤ q * d ∧ q * d < a * b + d) ∧
    ((∃ q, mul_div_down a b d = .ok q) ↔ d ≠ 0 ∧ a * b / d < U256_LIMIT) ∧
    ((∃ q, mul_div_up a b d = .ok q) ↔ d ≠ 0 ∧ (a * b + d - 1) / d < U256_LIMIT) ∧
    (a * b = 0 → d ≠ 0 → mul_div_up a b d = .ok 0) ∧
    mul_div_down (U256_LIMIT - 1) (U256_LIMIT - 1) (U256_LIMIT - 1) = .ok (U256_LIMIT - 1) := by
  clear _ha _hb _hd
  refine ⟨?_, ?_, ?_, ?_, ?_, ?_⟩
  · intro q hq
    rw [mul_div_down_eq] at hq
    split_ifs at hq
    cases hq
    rfl
  · intro q hq
    rw [mul_div_up_eq] at hq
    split_ifs at hq with h1 h2
    cases hq
    have hd1 : 0 < d := Nat.pos_of_ne_zero h1
    rw [mul_div_up_num_div a b d h1]
    have hub : (a * b + d - 1) / d * d ≤ a * b + d - 1 := Nat.div_mul_le_self _ _
    have hlb : a * b + d - 1 < (a * b + d - 1) / d * d + d := Nat.lt_div_mul_add hd1
    by_cases hp : a * b = 0
    · rw [hp]
      rw [hp] at hub hlb
      omega
    · have hp1 : 1 ≤ a * b := Nat.pos_of_ne_zero hp
      omega
  · constructor
    · rintro ⟨q, hq⟩
      rw [mul_div_down_eq] at hq
      split_ifs at hq with h1 h2
      exact ⟨h1, h2⟩
    · rintro ⟨h1, h2⟩
      refine ⟨a * b / d, ?_⟩
      rw [mul_div_down_eq, if_neg h1, if_pos h2]
  · constructor
    · rintro ⟨q, hq⟩
      rw [mul_div_up_eq] at hq
      split_ifs at hq with h1 h2
      rw [mul_div_up_num_div a b d h1] at h2
      exact ⟨h1, h2⟩
    · rintro ⟨h1, h2⟩
      refine ⟨mul_div_up_num a b d / d, ?_⟩
      rw [mul_div_up_eq, if_neg h1, if_pos (by rw [mul_div_up_num_div a b d h1]; exact h2)]
  · intro hp hd0
    rw [mul_div_up_eq, if_neg hd0]
    have hnum : mul_div_up_num a b d = 0 := by
      unfold mul_div_up_num
      rw [if_pos hp, hp]
    rw [hnum, Nat.zero_div, if_pos (by decide : (0 : Nat) < U256_LIMIT)]
  · rfl

/-- **C7 witness.** The theorem applied at `a = 6`, `b = 7`, `d = 2`. -/
theorem C7_mul_div_exact_witness :
    (∀ q, mul_div_down 6 7 2 = .ok q → q = 6 * 7 / 2) ∧
    (∀ q, mul_div_up 6 7 2 = .ok q → 6 * 7 ≤ q * 2 ∧ q * 2 < 6 * 7 + 2) ∧
    ((∃ q, mul_div_down 6 7 2 = .ok q) ↔ (2 : Nat) ≠ 0 ∧ 6 * 7 / 2 < U256_LIMIT) ∧
    ((∃ q, mul_div_up 6 7 2 = .ok q) ↔ (2 : Nat) ≠ 0 ∧ (6 * 7 + 2 - 1) / 2 < U256_LIMIT) ∧
    (6 * 7 = 0 → (2 : Nat) ≠ 0 → mul_div_up 6 7 2 = .ok 0) ∧
    mul_div_down (U256_LIMIT - 1) (U256_LIMIT - 1) (U256_LIMIT - 1) = .ok (U256_LIMIT - 1) :=
  C7_mul_div_exact 6 7 2 (by decide) (by decide) (by decide)

/-- The old leaf of a proof: the keyed leaf hash when present, the all-zero
absent leaf otherwise. -/
def old_leaf (keccak : Bytes → Bytes) (proof : MerkleProof) : Bytes :=
  if proof.present then leaf_hash keccak proof.key proof.value else leaf_hash_absent

/-- The new leaf for `apply_proof`'s optional new value. -/
def new_leaf_of (keccak : Bytes → Bytes) (key : Bytes) (new_value : Option Bytes) : Bytes :=
  match new_value with
  | some bytes => leaf_hash keccak key bytes
  | none => leaf_hash_absent

theorem verify_proof_eq (keccak : Bytes → Bytes) (root : Bytes) (proof : MerkleProof) :
    verify_proof keccak root proof =
      if proof.siblings.length ≠ 256 then .error (.Invalid "invalid proof length")
      else if proof.present = false ∧ proof.value ≠ [] then
        .error (.Invalid "absent proof has value bytes")
      else if fold_path keccak proof.key proof.siblings (old_leaf keccak proof) ≠ root then
        .error (.State "merkle proof root mismatch")
      else .ok (fold_path keccak proof.key proof.siblings (old_leaf keccak proof)) := rfl

theorem apply_proof_eq (keccak : Bytes → Bytes) (root : Bytes) (proof : MerkleProof)
    (new_value : Option Bytes) :
    apply_proof keccak root proof new_value =
      if proof.siblings.length ≠ 256 then .error (.Invalid "invalid proof length")
      else
        match verify_proof keccak root proof with
        | .error e => .error e
        | .ok old_root =>
          if old_root ≠ root then .error (.State "root changed during apply")
          else .ok (fold_path keccak proof.key proof.siblings (new_leaf_of keccak proof.key new_value)) := rfl

/-- Whenever `verify_proof` succeeds, the returned hash is the expected root. -/
theorem verify_proof_ok_eq_root (keccak : Bytes → Bytes) (root : Bytes) (proof : MerkleProof)
    (r : Bytes) (h : verify_proof keccak root proof = .ok r) : r = root := by
  rw [verify_proof_eq] at h
  by_cases h1 : proof.siblings.length ≠ 256
  · rw [if_pos h1] at h; cases h
  · rw [if_neg h1] at h
    by_cases h2 : proof.present = false ∧ proof.value ≠ []
    · rw [if_pos h2] at h; cases h
    · rw [if_neg h2] at h
      by_cases h3 : fold_path keccak proof.key proof.siblings (old_leaf keccak proof) ≠ root
      · rw [if_pos h3] at h; cases h
      · rw [if_neg h3] at h; cases h; exact not_not.mp h3

/-- Whenever `verify_proof` succeeds, the returned hash is the old-leaf fold. -/
theorem verify_proof_ok_eq_fold (keccak : Bytes → Bytes) (root : Bytes) (proof : MerkleProof)
    (r : Bytes) (h : verify_proof keccak root proof = .ok r) :
    r = fold_path keccak proof.key proof.siblings (old_leaf keccak proof) := by
  rw [verify_proof_eq] at h
  by_cases h1 : proof.siblings.length ≠ 256
  · rw [if_pos h1] at h; cases h
  · rw [if_neg h1] at h
    by_cases h2 : proof.present = false ∧ proof.value ≠ []
    · rw [if_pos h2] at h; cases h
    · rw [if_neg h2] at h
      by_cases h3 : fold_path keccak proof.key proof.siblings (old_leaf keccak proof) ≠ root
      · rw [if_pos h3] at h; cases h
      · rw [if_neg h3] at h; cases h; rfl

/-- **C2.** With exactly 256 siblings, `apply_proof` succeeds iff
`verify_proof` succeeds; `verify_proof` succeeds (for a well-formed proof) iff
the fold of the old leaf — the keyed leaf hash if present, the all-zero hash
if absent — through the siblings equals the root; on success `apply_proof`
returns the fold recomputed with the leaf of `new_value` (the absent leaf when
`None`); and a proof whose sibling count is not 256 always fails. -/
theorem C2_apply_proof_refines_verify (keccak : Bytes → Bytes) (root : Bytes)
    (proof : MerkleProof) (new_value : Option Bytes) :
    (proof.siblings.length = 256 →
      (((∃ r, apply_proof keccak root proof new_value = .ok r) ↔
         (∃ r, verify_proof keccak root proof = .ok r)) ∧
       (¬ (proof.present = false ∧ proof.value ≠ []) →
         ((∃ r, verify_proof keccak root proof = .ok r) ↔
           fold_path keccak proof.key proof.siblings (old_leaf keccak proof) = root)) ∧
       (∀ r, apply_proof keccak root proof new_value = .ok r →
         r = fold_path keccak proof.key proof.siblings (new_leaf_of keccak proof.key new_value)))) ∧
    (proof.siblings.length ≠ 256 →
      apply_proof keccak root proof new_value = .error (.Invalid "invalid proof length") ∧
      verify_proof keccak root proof = .error (.Invalid "invalid proof length")) := by
  constructor
  · intro hlen
    have hlen' : ¬ proof.siblings.length ≠ 256 := not_not.mpr hlen
    refine ⟨?_, ?_, ?_⟩
    · constructor
      · rintro ⟨r, hr⟩
        rw [apply_proof_eq, if_neg hlen'] at hr
        cases hv : verify_proof keccak root proof with
        | error e => rw [hv] at hr; cases hr
        | ok v => exact ⟨v, rfl⟩
      · rintro ⟨r, hr⟩
        refine ⟨fold_path keccak proof.key proof.siblings (new_leaf_of keccak proof.key new_value), ?_⟩
        rw [apply_proof_eq, if_neg hlen', hr]
        have hroot : r = root := verify_proof_ok_eq_root keccak root proof r hr
        dsimp only
        rw [if_neg (not_not.mpr hroot)]
    · intro hwf
      constructor
      · rintro ⟨r, hr⟩
        have hroot : r = root := verify_proof_ok_eq_root keccak root proof r hr
        have hfold : r = fold_path keccak proof.key proof.siblings (old_leaf keccak proof) :=
          verify_proof_ok_eq_fold keccak root proof r hr
        rw [← hfold, hroot]
      · intro hfold
        refine ⟨root, ?_⟩
        rw [verify_proof_eq, if_neg hlen', if_neg hwf, if_neg (not_not.mpr hfold), hfold]
    · intro r hr
      rw [apply_proof_eq, if_neg hlen'] at hr
      cases hv : verify_proof keccak root proof with
      | error e => rw [hv] at hr; cases hr
      | ok v =>
        rw [hv] at hr
        have hroot : v = root := verify_proof_ok_eq_root keccak root proof v hv
        dsimp only at hr
        rw [if_neg (not_not.mpr hroot)] at hr
        cases hr
        rfl
  · intro hlen
    constructor
    · rw [apply_proof_eq, if_pos hlen]
    · rw [verify_proof_eq, if_pos hlen]

/-- A concrete 256-sibling absent proof over the trivial hash (used to witness
the merkle theorems). -/
def proof_w : MerkleProof := ⟨ZERO32, [], false, List.replicate 256 ZERO32⟩

/-- The constant hash function used to witness hash-generic theorems. -/
def keccak_w : Bytes → Bytes := fun _ => ZERO32

set_option maxRecDepth 4000 in
/-- **C2 witness.** The theorem applied to the concrete absent proof with the
constant hash: success of `apply_proof` coincides with success of
`verify_proof`, and a short-sibling proof fails. -/
theorem C2_apply_proof_refines_verify_witness :
    (((∃ r, apply_proof keccak_w ZERO32 proof_w none = .ok r) ↔
      (∃ r, verify_proof keccak_w ZERO32 proof_w = .ok r)) ∧
     (apply_proof keccak_w ZERO32 ⟨ZERO32, [], false, []⟩ none =
       .error (.Invalid "invalid proof length"))) :=
  ⟨((C2_apply_proof_refines_verify keccak_w ZERO32 proof_w none).1 (by decide)).1,
   ((C2_apply_proof_refines_verify keccak_w ZERO32 ⟨ZERO32, [], false, []⟩ none).2
     (by decide)).1⟩

theorem read_value_cons (keccak : Bytes → Bytes) (root : Bytes) (proof : MerkleProof)
    (rest : List MerkleProof) (touched : List Bytes) (key : Bytes) :
    ProofState.read_value keccak ⟨root, proof :: rest, touched⟩ key =
      if proof.key ≠ key then .error (.State "proof key mismatch")
      else
        match verify_proof keccak root proof with
        | .error e => .error e
        | .ok _ =>
          .ok (if proof.present then some proof.value else none,
            (⟨root, rest, touched ++ [key]⟩ : ProofState)) := rfl

/-- **C10.** A proof whose `present` flag is false but whose value bytes are
non-empty is rejected with an `Invalid` error by `verify_proof`, by
`apply_proof` (for every new value), and by `ProofState::read_value` when that
proof is at the head of the queue for its own key — regardless of the root or
siblings, hence even when the absent-leaf fold would match the root. -/
theorem C10_ghost_value_rejected (keccak : Bytes → Bytes) (root : Bytes) (proof : MerkleProof)
    (hpres : proof.present = false) (hval : proof.value ≠ []) :
    (∃ m, verify_proof keccak root proof = .error (.Invalid m)) ∧
    (∀ new_value, ∃ m, apply_proof keccak root proof new_value = .error (.Invalid m)) ∧
    (∀ rest touched,
      ∃ m, ProofState.read_value keccak ⟨root, proof :: rest, touched⟩ proof.key =
        .error (.Invalid m)) := by
  have hverify : ∃ m, verify_proof keccak root proof = .error (.Invalid m) := by
    rw [verify_proof_eq]
    by_cases hlen : proof.siblings.length ≠ 256
    · exact ⟨"invalid proof length", by rw [if_pos hlen]⟩
    · exact ⟨"absent proof has value bytes", by rw [if_neg hlen, if_pos ⟨hpres, hval⟩]⟩
  refine ⟨hverify, ?_, ?_⟩
  · intro new_value
    obtain ⟨m, hm⟩ := hverify
    rw [apply_proof_eq]
    by_cases hlen : proof.siblings.length ≠ 256
    · exact ⟨"invalid proof length", by rw [if_pos hlen]⟩
    · exact ⟨m, by rw [if_neg hlen, hm]⟩
  · intro rest touched
    obtain ⟨m, hm⟩ := hverify
    refine ⟨m, ?_⟩
    rw [read_value_cons, if_neg (not_not.mpr rfl), hm]

/-- **C10 witness.** The concrete absent-but-nonempty proof (value `[1]`,
256 zero siblings over the constant hash) is rejected everywhere. -/
theorem C10_ghost_value_rejected_witness :
    (∃ m, verify_proof keccak_w ZERO32 ⟨ZERO32, [1], false, List.replicate 256 ZERO32⟩ =
      .error (.Invalid m)) ∧
    (∀ new_value, ∃ m,
      apply_proof keccak_w ZERO32 ⟨ZERO32, [1], false, List.replicate 256 ZERO32⟩ new_value =
        .error (.Invalid m)) ∧
    (∀ rest touched, ∃ m,
      ProofState.read_value keccak_w
        ⟨ZERO32, (⟨ZERO32, [1], false, List.replicate 256 ZERO32⟩ : MerkleProof) :: rest, touched⟩
        ZERO32 = .error (.Invalid m)) :=
  C10_ghost_value_rejected keccak_w ZERO32 ⟨ZERO32, [1], false, List.replicate 256 ZERO32⟩
    rfl (by simp)

/-- **C8.** Whenever the underlying `read_value` returns no value at an
entity's derived key, the typed getter of `state.rs` returns that entity's
default: empty Balance, nonce 0, `None` for Order, zero-filled
OrderNode/TickNode, empty MarketBest and zero FeeVault. -/
theorem C8_absent_reads_default (keccak : Bytes → Bytes) (read : RawRead) :
    (∀ account asset, read (key_balance keccak account asset) = .ok none →
      ByteState.get_balance keccak read account asset = .ok Balance.empty) ∧
    (∀ account, read (key_nonce keccak account) = .ok none →
      ByteState.get_nonce keccak read account = .ok 0) ∧
    (∀ order_id, read (key_order keccak order_id) = .ok none →
      ByteState.get_order keccak read order_id = .ok none) ∧
    (∀ order_id, read (key_order_node keccak order_id) = .ok none →
      ByteState.get_order_node keccak read order_id = .ok ⟨NONE_ORDER_ID, NONE_ORDER_ID⟩) ∧
    (∀ market side tick, read (key_tick_node keccak market side tick) = .ok none →
      ByteState.get_tick_node keccak read market side tick =
        .ok ⟨NONE_TICK, NONE_TICK, NONE_ORDER_ID, NONE_ORDER_ID⟩) ∧
    (∀ market, read (key_market_best keccak market) = .ok none →
      ByteState.get_market_best keccak read market = .ok ⟨NONE_TICK, NONE_TICK⟩) ∧
    (∀ asset, read (key_fee_vault keccak asset) = .ok none →
      ByteState.get_fee_vault keccak read asset = .ok 0) := by
  refine ⟨?_, ?_, ?_, ?_, ?_, ?_, ?_⟩
  · intro account asset h
    unfold ByteState.get_balance
    rw [h]
    rfl
  · intro account h
    unfold ByteState.get_nonce
    rw [h]
    rfl
  · intro order_id h
    unfold ByteState.get_order
    rw [h]
    rfl
  · intro order_id h
    unfold ByteState.get_order_node
    rw [h]
    rfl
  · intro market side tick h
    unfold ByteState.get_tick_node
    rw [h]
    rfl
  · intro market h
    unfold ByteState.get_market_best
    rw [h]
    rfl
  · intro asset h
    unfold ByteState.get_fee_vault
    rw [h]
    rfl

/-- The everywhere-absent raw store. -/
def read_none : RawRead := fun _ => .ok none

/-- **C8 witness.** All seven getters applied over the everywhere-absent
store. -/
theorem C8_absent_reads_default_witness :
    ByteState.get_balance keccak_w read_none [1] [2] = .ok Balance.empty ∧
    ByteState.get_nonce keccak_w read_none [1] = .ok 0 ∧
    ByteState.get_order keccak_w read_none [3] = .ok none ∧
    ByteState.get_order_node keccak_w read_none [3] = .ok ⟨NONE_ORDER_ID, NONE_ORDER_ID⟩ ∧
    ByteState.get_tick_node keccak_w read_none [4] 0 1 =
      .ok ⟨NONE_TICK, NONE_TICK, NONE_ORDER_ID, NONE_ORDER_ID⟩ ∧
    ByteState.get_market_best keccak_w read_none [4] = .ok ⟨NONE_TICK, NONE_TICK⟩ ∧
    ByteState.get_fee_vault keccak_w read_none [2] = .ok 0 :=
  ⟨(C8_absent_reads_default keccak_w read_none).1 [1] [2] rfl,
   (C8_absent_reads_default keccak_w read_none).2.1 [1] rfl,
   (C8_absent_reads_default keccak_w read_none).2.2.1 [3] rfl,
   (C8_absent_reads_default keccak_w read_none).2.2.2.1 [3] rfl,
   (C8_absent_reads_default keccak_w read_none).2.2.2.2.1 [4] 0 1 rfl,
   (C8_absent_reads_default keccak_w read_none).2.2.2.2.2.1 [4] rfl,
   (C8_absent_reads_default keccak_w read_none).2.2.2.2.2.2 [2] rfl⟩

/-- **C9.** `apply_batch` is a pure function of its inputs: two runs over the
same (rules, domain separator, market id, messages, signature oracle, fuel and
pre-state) produce identical results — same final state, same ordered trades,
same fee totals, or the same failure. -/
theorem C9_apply_batch_deterministic (fuel : Nat) (verify_sig : SigVerifier) (market_id : Nat)
    (rules : Rules) (domain_sep : Nat) (messages : List SignedMessage) (s : EngineState)
    (r₁ r₂ : Except CoreError (EngineState × BatchOutput))
    (h₁ : apply_batch fuel verify_sig market_id rules domain_sep messages s = r₁)
    (h₂ : apply_batch fuel verify_sig market_id rules domain_sep messages s = r₂) :
    r₁ = r₂ := by
  rw [← h₁, ← h₂]

/-- **C9 witness.** Two runs of the concrete self-trade batch agree. -/
theorem C9_apply_batch_deterministic_witness :
    apply_batch 20 vs_ok 3 rulesA 0 [c1_msg] c1_pre =
      apply_batch 20 vs_ok 3 rulesA 0 [c1_msg] c1_pre :=
  C9_apply_batch_deterministic 20 vs_ok 3 rulesA 0 [c1_msg] c1_pre _ _ rfl rfl

/-- **C1.** Falsified by a self-trade: trader 7 crosses their own resting Sell
order.  The batch succeeds, yet the conserved quote quantity
Σ(available+locked)+vault rises from 5 to 10 and the conserved base quantity
falls from 5 to 0, because the fill writes the maker-side copies of the same
two balances last and the taker-side debits are lost. -/
theorem C1_self_trade_breaks_conservation :
    (apply_batch 20 vs_ok 3 rulesA 0 [c1_msg] c1_pre).map
      (fun p => (conserved_total p.1 2, conserved_total p.1 1)) = .ok (10, 0) ∧
    (conserved_total c1_pre 2, conserved_total c1_pre 1) = (5, 5) := by
  exact ⟨rfl, rfl⟩

/-- Inversion for a successful `Except` bind. -/
theorem Except.bind_ok_inv {ε α β : Type} (m : Except ε α) (k : α → Except ε β) (r : β)
    (h : (m >>= k) = .ok r) : ∃ a, m = .ok a ∧ k a = .ok r := by
  cases m with
  | error e =>
    rw [show ((Except.error e : Except ε α) >>= k) = .error e from rfl] at h
    cases h
  | ok a =>
    rw [show ((Except.ok a : Except ε α) >>= k) = k a from rfl] at h
    exact ⟨a, rfl, h⟩

theorem kvGet_kvSet {α β : Type} [DecidableEq α] (l : List (α × β)) (k : α) (v : β) (k' : α) :
    kvGet (kvSet l k v) k' = if k = k' then some v else kvGet l k' := by
  induction l with
  | nil =>
    unfold kvSet kvGet
    by_cases h : k = k' <;> simp [h, kvGet]
  | cons p rest ih =>
    obtain ⟨a, b⟩ := p
    unfold kvSet
    by_cases h : a = k
    · rw [if_pos h]
      by_cases h2 : k = k'
      · simp [kvGet, h2]
      · simp [kvGet, h2, h ▸ h2]
    · rw [if_neg h]
      by_cases h2 : a = k'
      · have : ¬ k = k' := fun hk => h (hk ▸ h2 ▸ rfl)
        simp [kvGet, h2, this]
      · simp [kvGet, h2, ih]

theorem get_balance_set_balance (s : EngineState) (a x : Nat) (b : Balance) (a' x' : Nat) :
    get_balance (set_balance s a x b) a' x' =
      if (a, x) = (a', x') then b else get_balance s a' x' := by
  unfold get_balance set_balance
  simp only []
  rw [kvGet_kvSet]
  by_cases h : ((a, x) : Nat × Nat) = (a', x')
  · rw [if_pos h, if_pos h]
    rfl
  · rw [if_neg h, if_neg h]

/-- `ensure_balance_limit` succeeds exactly when both fields are within the
limit. -/
theorem ensure_balance_limit_ok (b : Balance) (m : Nat) :
    ensure_balance_limit b m = .ok () ↔ (b.available ≤ m ∧ b.locked ≤ m) := by
  unfold ensure_balance_limit
  by_cases h : b.available > m ∨ b.locked > m
  · rw [if_pos h]
    constructor
    · intro hc; cases hc
    · intro hc; omega
  · rw [if_neg h]
    constructor
    · intro _; omega
    · intro _; rfl

/-- Splitting a successful bind whose head is `ensure_balance_limit`. -/
theorem ensure_bind_ok {β : Type} (b : Balance) (m : Nat) (k : Unit → Except CoreError β)
    (r : β) (h : (ensure_balance_limit b m >>= k) = .ok r) :
    (b.available ≤ m ∧ b.locked ≤ m) ∧ k () = .ok r := by
  obtain ⟨u, hu, hk⟩ := Except.bind_ok_inv _ _ _ h
  cases u
  exact ⟨(ensure_balance_limit_ok b m).mp hu, hk⟩

/-- **C3 counterexample.** A Place whose pre-lock pushes `locked` above
`max_balance` succeeds: with `max_balance = 10` and base balance
(available 5, locked 10), the GTC Sell for 5 base is accepted and leaves the
trader's base balance at (0, 15), locked exceeding the limit — the pre-lock
write is not limit-checked, contradicting the claim. -/
theorem C3_prelock_exceeds_max_balance :
    (apply_batch 20 vs_ok 3 rulesB 0 [c3_msg] c3_pre).map
      (fun p => get_balance p.1 7 1) = .ok ⟨0, 15⟩ ∧
    rulesB.max_balance = 10 := by
  exact ⟨rfl, rfl⟩

/-- Success of a release leaves the released balance within the limit. -/
theorem release_remaining_ok_bounds (s : EngineState) (trader : Nat) (side : Side)
    (remaining price : Nat) (rules : Rules) (s' : EngineState)
    (h : release_remaining s trader side remaining price rules = .ok s') :
    (side = .Buy →
      (get_balance s' trader rules.quote_asset_id).available ≤ rules.max_balance ∧
      (get_balance s' trader rules.quote_asset_id).locked ≤ rules.max_balance) ∧
    (side = .Sell →
      (get_balance s' trader rules.base_asset_id).available ≤ rules.max_balance ∧
      (get_balance s' trader rules.base_asset_id).locked ≤ rules.max_balance) := by
  cases side with
  | Buy =>
    unfold release_remaining at h
    dsimp only at h
    obtain ⟨release, _, hk⟩ := Except.bind_ok_inv _ _ _ h
    by_cases hc : (get_balance s trader rules.quote_asset_id).locked < release
    · rw [if_pos hc] at hk
      cases hk
    · rw [if_neg hc] at hk
      obtain ⟨hbounds, hpure⟩ := ensure_bind_ok _ _ _ _ hk
      cases hpure
      refine ⟨fun _ => ?_, fun hs => by cases hs⟩
      rw [get_balance_set_balance, if_pos rfl]
      exact hbounds
  | Sell =>
    unfold release_remaining at h
    dsimp only at h
    by_cases hc : (get_balance s trader rules.base_asset_id).locked < remaining
    · rw [if_pos hc] at h
      cases h
    · rw [if_neg hc] at h
      obtain ⟨hbounds, hpure⟩ := ensure_bind_ok _ _ _ _ h
      cases hpure
      refine ⟨fun hs => (by cases hs), fun _ => ?_⟩
      rw [get_balance_set_balance, if_pos rfl]
      exact hbounds

/-- Success of a fill settlement leaves each of the four written balances
within the limit (whichever write wins under aliasing, it was checked). -/
theorem settle_fill_ok_bounds (rules : Rules) (trader maker_owner : Nat) (side : Side)
    (fill_qty quote_amt fee : Nat) (s s' : EngineState)
    (h : settle_fill rules trader maker_owner side fill_qty quote_amt fee s = .ok s') :
    ∀ a x,
      ((a, x) = (trader, rules.quote_asset_id) ∨ (a, x) = (trader, rules.base_asset_id) ∨
       (a, x) = (maker_owner, rules.base_asset_id) ∨ (a, x) = (maker_owner, rules.quote_asset_id)) →
      (get_balance s' a x).available ≤ rules.max_balance ∧
      (get_balance s' a x).locked ≤ rules.max_balance := by
  cases side with
  | Buy =>
    unfold settle_fill at h
    dsimp only at h
    by_cases h1 : (get_balance s trader rules.quote_asset_id).locked < quote_amt + fee
    · rw [if_pos h1] at h
      cases h
    · rw [if_neg h1] at h
      by_cases h2 : (get_balance s maker_owner rules.base_asset_id).locked < fill_qty
      · rw [if_pos h2] at h
        cases h
      · rw [if_neg h2] at h
        obtain ⟨hb1, h⟩ := ensure_bind_ok _ _ _ _ h
        obtain ⟨hb2, h⟩ := ensure_bind_ok _ _ _ _ h
        obtain ⟨hb3, h⟩ := ensure_bind_ok _ _ _ _ h
        obtain ⟨hb4, h⟩ := ensure_bind_ok _ _ _ _ h
        cases h
        intro a x hmem
        rw [get_balance_set_balance]
        by_cases k4 : (maker_owner, rules.quote_asset_id) = (a, x)
        · rw [if_pos k4]
          exact hb4
        · rw [if_neg k4, get_balance_set_balance]
          by_cases k3 : (maker_owner, rules.base_asset_id) = (a, x)
          · rw [if_pos k3]
            exact hb3
          · rw [if_neg k3, get_balance_set_balance]
            by_cases k2 : (trader, rules.base_asset_id) = (a, x)
            · rw [if_pos k2]
              exact hb2
            · rw [if_neg k2, get_balance_set_balance]
              by_cases k1 : (trader, rules.quote_asset_id) = (a, x)
              · rw [if_pos k1]
                exact hb1
              · rcases hmem with hm | hm | hm | hm
                · exact absurd hm.symm k1
                · exact absurd hm.symm k2
                · exact absurd hm.symm k3
                · exact absurd hm.symm k4
  | Sell =>
    unfold settle_fill at h
    dsimp only at h
    by_cases h1 : (get_balance s trader rules.base_asset_id).locked < fill_qty
    · rw [if_pos h1] at h
      cases h
    · rw [if_neg h1] at h
      by_cases h2 : (get_balance s maker_owner rules.quote_asset_id).locked < quote_amt
      · rw [if_pos h2] at h
        cases h
      · rw [if_neg h2] at h
        by_cases h3 : quote_amt < fee
        · rw [if_pos h3] at h
          cases h
        · rw [if_neg h3] at h
          obtain ⟨hb1, h⟩ := ensure_bind_ok _ _ _ _ h
          obtain ⟨hb2, h⟩ := ensure_bind_ok _ _ _ _ h
          obtain ⟨hb3, h⟩ := ensure_bind_ok _ _ _ _ h
          obtain ⟨hb4, h⟩ := ensure_bind_ok _ _ _ _ h
          cases h
          intro a x hmem
          rw [get_balance_set_balance]
          by_cases k4 : (maker_owner, rules.quote_asset_id) = (a, x)
          · rw [if_pos k4]
            exact hb4
          · rw [if_neg k4, get_balance_set_balance]
            by_cases k3 : (maker_owner, rules.base_asset_id) = (a, x)
            · rw [if_pos k3]
              exact hb3
            · rw [if_neg k3, get_balance_set_balance]
              by_cases k2 : (trader, rules.quote_asset_id) = (a, x)
              · rw [if_pos k2]
                exact hb2
              · rw [if_neg k2, get_balance_set_balance]
                by_cases k1 : (trader, rules.base_asset_id) = (a, x)
                · rw [if_pos k1]
                  exact hb1
                · rcases hmem with hm | hm | hm | hm
                  · exact absurd hm.symm k2
                  · exact absurd hm.symm k1
                  · exact absurd hm.symm k3
                  · exact absurd hm.symm k4

/-- Concrete release-witness pre-state: trader 7 holds base (0, 5). -/
def c3w_pre : EngineState := ⟨[((7, 1), ⟨0, 5⟩)], [], [], [], [], [], []⟩

/-- The state after releasing 5 base back to trader 7. -/
def c3w_post : EngineState := ⟨[((7, 1), ⟨5, 0⟩)], [], [], [], [], [], []⟩

/-- Concrete settlement-witness pre-state: taker 7 (quote locked 5) and
maker 6 (base locked 5). -/
def c4w_pre : EngineState :=
  ⟨[((7, 2), ⟨0, 5⟩), ((7, 1), ⟨0, 0⟩), ((6, 1), ⟨0, 5⟩), ((6, 2), ⟨0, 0⟩)],
   [], [], [], [], [], []⟩

/-- The state after the Buy fill of 5 base for 5 quote with zero fee. -/
def c4w_post : EngineState :=
  ⟨[((7, 2), ⟨0, 0⟩), ((7, 1), ⟨5, 0⟩), ((6, 1), ⟨0, 0⟩), ((6, 2), ⟨5, 0⟩)],
   [], [], [], [], [], []⟩

/-- **C3 (amended).** `ensure_balance_limit` accepts exactly the balances with
both fields ≤ `max_balance`; it is applied after each of the four per-fill
settlement updates and after every release (IOC remainder or Cancel), so on
success each such written balance respects the limit and a violating mutation
fails the batch.  The pre-lock write of a Place is not limit-checked (see the
counterexample). -/
theorem C3_limits_after_settlement_and_release :
    (∀ b m, ensure_balance_limit b m = .ok () ↔ (b.available ≤ m ∧ b.locked ≤ m)) ∧
    (∀ s trader side remaining price rules s',
      release_remaining s trader side remaining price rules = .ok s' →
      (side = .Buy →
        (get_balance s' trader rules.quote_asset_id).available ≤ rules.max_balance ∧
        (get_balance s' trader rules.quote_asset_id).locked ≤ rules.max_balance) ∧
      (side = .Sell →
        (get_balance s' trader rules.base_asset_id).available ≤ rules.max_balance ∧
        (get_balance s' trader rules.base_asset_id).locked ≤ rules.max_balance)) ∧
    (∀ rules trader maker_owner side fill_qty quote_amt fee s s',
      settle_fill rules trader maker_owner side fill_qty quote_amt fee s = .ok s' →
      ∀ a x,
        ((a, x) = (trader, rules.quote_asset_id) ∨ (a, x) = (trader, rules.base_asset_id) ∨
         (a, x) = (maker_owner, rules.base_asset_id) ∨
         (a, x) = (maker_owner, rules.quote_asset_id)) →
        (get_balance s' a x).available ≤ rules.max_balance ∧
        (get_balance s' a x).locked ≤ rules.max_balance) :=
  ⟨ensure_balance_limit_ok,
   release_remaining_ok_bounds,
   settle_fill_ok_bounds⟩

/-- **C3 witness.** The amended claim applied at a concrete release (5 base
back to trader 7) and a concrete Buy fill settlement. -/
theorem C3_limits_after_settlement_and_release_witness :
    (ensure_balance_limit ⟨1, 2⟩ 10 = .ok () ↔ ((1 : Nat) ≤ 10 ∧ (2 : Nat) ≤ 10)) ∧
    ((get_balance c3w_post 7 rulesA.base_asset_id).available ≤ rulesA.max_balance ∧
     (get_balance c3w_post 7 rulesA.base_asset_id).locked ≤ rulesA.max_balance) ∧
    ((get_balance c4w_post 7 2).available ≤ rulesA.max_balance ∧
     (get_balance c4w_post 7 2).locked ≤ rulesA.max_balance) :=
  ⟨C3_limits_after_settlement_and_release.1 ⟨1, 2⟩ 10,
   (C3_limits_after_settlement_and_release.2.1 c3w_pre 7 .Sell 5 0 rulesA c3w_post rfl).2 rfl,
   C3_limits_after_settlement_and_release.2.2 rulesA 7 6 .Buy 5 5 0 c4w_pre c4w_post rfl
     7 2 (Or.inl rfl)⟩

/-- **C5 counterexample.** A resting GTC Place on a new tick with
`prev_tick_hint = 2` succeeds even though no TickNode exists at tick 2 on the
buy side: the absent read returns the zero node, whose `next_tick = NONE_TICK`
equals the given `next_tick_hint`, so the "prev TickNode must exist" reading
of the claim is false.  Order 8 ends up resting Open on tick 1. -/
theorem C5_absent_prev_hint_accepted :
    kvGet c5_pre.tickNodes (3, Side.Buy.as_u8, 2) = none ∧
    (apply_batch 20 vs_ok 3 rulesA 0 [c5_msg] c5_pre).map
      (fun p => get_order p.1 8) = .ok (some ⟨7, .Buy, 1, 5, .Gtc, .Open⟩) := by
  exact ⟨rfl, rfl⟩

/-- Reduction of an `Except` bind with an error head. -/
theorem error_bind {α β : Type} (e : CoreError) (k : α → Except CoreError β) :
    ((Except.error e : Except CoreError α) >>= k) = .error e := rfl

/-- Reduction of an `Except` bind with an ok head. -/
theorem ok_bind {α β : Type} (a : α) (k : α → Except CoreError β) :
    ((Except.ok a : Except CoreError α) >>= k) = k a := rfl

/-- **C5 (amended).** For a new-tick insertion with `prev_tick_hint ≠
NONE_TICK`, `verify_tick_hints` succeeds iff the prev TickNode *as read*
(the zero node when absent) has `next_tick = next_tick_hint`, the side
ordering holds (Buy: `prev > tick`; Sell: `prev < tick`), and the symmetric
checks on `next_tick_hint` pass; every failure is an `Invalid` error; and on
an inactive tick a hint failure fails `place_resting` with the same error
(and hence the whole batch, with no partial commit). -/
theorem C5_tick_hint_validation (s : EngineState) (market_id : Nat) (side : Side)
    (tick prev_tick next_tick : Int) (best : MarketBest) (hprev : prev_tick ≠ NONE_TICK) :
    (verify_tick_hints s market_id side tick prev_tick next_tick best = .ok () ↔
      ((get_tick_node s market_id side.as_u8 prev_tick).next_tick = next_tick ∧
       (side = .Buy → prev_tick > tick) ∧ (side = .Sell → prev_tick < tick) ∧
       (next_tick ≠ NONE_TICK →
         (get_tick_node s market_id side.as_u8 next_tick).prev_tick = prev_tick ∧
         (side = .Buy → next_tick < tick) ∧ (side = .Sell → next_tick > tick)))) ∧
    (∀ e, verify_tick_hints s market_id side tick prev_tick next_tick best = .error e →
      ∃ m, e = .Invalid m) ∧
    (∀ order_id trader qty_remaining tif,
      (get_tick_node s market_id side.as_u8 tick).head_order_id = NONE_ORDER_ID →
      ∀ e, verify_tick_hints s market_id side tick prev_tick next_tick best = .error e →
        place_resting s market_id order_id trader side tick qty_remaining tif
          prev_tick next_tick best = .error e) := by
  have hsplit : verify_tick_hints s market_id side tick prev_tick next_tick best =
      ((if (get_tick_node s market_id side.as_u8 prev_tick).next_tick ≠ next_tick then
          .error (.Invalid "prev tick hint mismatch")
        else if side = .Buy ∧ prev_tick ≤ tick then .error (.Invalid "bid prev tick order")
        else if side = .Sell ∧ prev_tick ≥ tick then .error (.Invalid "ask prev tick order")
        else .ok ()) >>= fun _ =>
        if next_tick ≠ NONE_TICK then
          if (get_tick_node s market_id side.as_u8 next_tick).prev_tick ≠ prev_tick then
            .error (.Invalid "next tick hint mismatch")
          else if side = .Buy ∧ next_tick ≥ tick then .error (.Invalid "bid next tick order")
          else if side = .Sell ∧ next_tick ≤ tick then .error (.Invalid "ask next tick order")
          else .ok ()
        else .ok ()) := by
    unfold verify_tick_hints
    rw [if_pos hprev]
  refine ⟨?_, ?_, ?_⟩
  · rw [hsplit]
    by_cases h1 : (get_tick_node s market_id side.as_u8 prev_tick).next_tick ≠ next_tick
    · rw [if_pos h1, error_bind]
      constructor
      · intro h
        cases h
      · rintro ⟨hn, -⟩
        exact absurd hn h1
    · rw [if_neg h1]
      by_cases h2 : side = .Buy ∧ prev_tick ≤ tick
      · rw [if_pos h2, error_bind]
        constructor
        · intro h
          cases h
        · rintro ⟨-, hb, -⟩
          have := hb h2.1
          omega
      · rw [if_neg h2]
        by_cases h3 : side = .Sell ∧ prev_tick ≥ tick
        · rw [if_pos h3, error_bind]
          constructor
          · intro h
            cases h
          · rintro ⟨-, -, hs2, -⟩
            have := hs2 h3.1
            omega
        · rw [if_neg h3]
          simp only [ok_bind]
          have hside1 : side = .Buy → prev_tick > tick := by
            intro hb
            rcases Int.lt_or_le tick prev_tick with hlt | hle
            · exact hlt
            · exact absurd ⟨hb, hle⟩ h2
          have hside2 : side = .Sell → prev_tick < tick := by
            intro hs2
            rcases Int.lt_or_le prev_tick tick with hlt | hle
            · exact hlt
            · exact absurd ⟨hs2, hle⟩ h3
          by_cases h4 : next_tick ≠ NONE_TICK
          · rw [if_pos h4]
            by_cases h5 : (get_tick_node s market_id side.as_u8 next_tick).prev_tick ≠ prev_tick
            · rw [if_pos h5]
              constructor
              · intro h
                cases h
              · rintro ⟨-, -, -, hnx⟩
                exact absurd (hnx h4).1 h5
            · rw [if_neg h5]
              by_cases h6 : side = .Buy ∧ next_tick ≥ tick
              · rw [if_pos h6]
                constructor
                · intro h
                  cases h
                · rintro ⟨-, -, -, hnx⟩
                  have := (hnx h4).2.1 h6.1
                  omega
              · rw [if_neg h6]
                by_cases h7 : side = .Sell ∧ next_tick ≤ tick
                · rw [if_pos h7]
                  constructor
                  · intro h
                    cases h
                  · rintro ⟨-, -, -, hnx⟩
                    have := (hnx h4).2.2 h7.1
                    omega
                · rw [if_neg h7]
                  constructor
                  · intro _
                    refine ⟨not_not.mp h1, hside1, hside2, fun _ => ⟨not_not.mp h5, ?_, ?_⟩⟩
                    · intro hb
                      rcases Int.lt_or_le next_tick tick with hlt | hle
                      · exact hlt
                      · exact absurd ⟨hb, hle⟩ h6
                    · intro hs2
                      rcases Int.lt_or_le tick next_tick with hlt | hle
                      · exact hlt
                      · exact absurd ⟨hs2, hle⟩ h7
                  · intro _
                    rfl
          · rw [if_neg h4]
            constructor
            · intro _
              exact ⟨not_not.mp h1, hside1, hside2, fun hnn => absurd hnn h4⟩
            · intro _
              rfl
  · intro e he
    rw [hsplit] at he
    by_cases h1 : (get_tick_node s market_id side.as_u8 prev_tick).next_tick ≠ next_tick
    · rw [if_pos h1, error_bind] at he
      cases he
      exact ⟨_, rfl⟩
    · rw [if_neg h1] at he
      by_cases h2 : side = .Buy ∧ prev_tick ≤ tick
      · rw [if_pos h2, error_bind] at he
        cases he
        exact ⟨_, rfl⟩
      · rw [if_neg h2] at he
        by_cases h3 : side = .Sell ∧ prev_tick ≥ tick
        · rw [if_pos h3, error_bind] at he
          cases he
          exact ⟨_, rfl⟩
        · rw [if_neg h3] at he
          simp only [ok_bind] at he
          by_cases h4 : next_tick ≠ NONE_TICK
          · rw [if_pos h4] at he
            by_cases h5 : (get_tick_node s market_id side.as_u8 next_tick).prev_tick ≠ prev_tick
            · rw [if_pos h5] at he
              cases he
              exact ⟨_, rfl⟩
            · rw [if_neg h5] at he
              by_cases h6 : side = .Buy ∧ next_tick ≥ tick
              · rw [if_pos h6] at he
                cases he
                exact ⟨_, rfl⟩
              · rw [if_neg h6] at he
                by_cases h7 : side = .Sell ∧ next_tick ≤ tick
                · rw [if_pos h7] at he
                  cases he
                  exact ⟨_, rfl⟩
                · rw [if_neg h7] at he
                  cases he
          · rw [if_neg h4] at he
            cases he
  · intro order_id trader qty_remaining tif hinactive e he
    unfold place_resting
    dsimp only
    rw [if_pos (not_not.mpr hinactive), he]
    simp only [error_bind]

/-- **C5 witness.** The hint characterisation applied at the concrete empty
book: Buy tick 1 with hints (2, NONE_TICK). -/
theorem C5_tick_hint_validation_witness :
    verify_tick_hints c5_pre 3 .Buy 1 2 NONE_TICK ⟨NONE_TICK, NONE_TICK⟩ = .ok () ↔
      ((get_tick_node c5_pre 3 Side.Buy.as_u8 2).next_tick = NONE_TICK ∧
       (Side.Buy = Side.Buy → (2 : Int) > 1) ∧ (Side.Buy = Side.Sell → (2 : Int) < 1) ∧
       (NONE_TICK ≠ NONE_TICK →
         (get_tick_node c5_pre 3 Side.Buy.as_u8 NONE_TICK).prev_tick = 2 ∧
         (Side.Buy = Side.Buy → NONE_TICK < 1) ∧ (Side.Buy = Side.Sell → NONE_TICK > 1))) :=
  (C5_tick_hint_validation c5_pre 3 .Buy 1 2 NONE_TICK ⟨NONE_TICK, NONE_TICK⟩ (by decide)).1

theorem balances_set_order (s : EngineState) (oid : Nat) (o : Order) :
    (set_order s oid o).balances = s.balances := rfl

theorem balances_set_order_node (s : EngineState) (oid : Nat) (n : OrderNode) :
    (set_order_node s oid n).balances = s.balances := rfl

theorem balances_set_fee_vault (s : EngineState) (x t : Nat) :
    (set_fee_vault s x t).balances = s.balances := rfl

theorem balances_set_tick_node (s : EngineState) (m sd : Nat) (t : Int) (n : TickNode) :
    (set_tick_node s m sd t n).balances = s.balances := rfl

theorem balances_set_market_best (s : EngineState) (m : Nat) (b : MarketBest) :
    (set_market_best s m b).balances = s.balances := rfl

theorem feeVaults_set_balance (s : EngineState) (a x : Nat) (b : Balance) :
    (set_balance s a x b).feeVaults = s.feeVaults := rfl

theorem feeVaults_set_order (s : EngineState) (oid : Nat) (o : Order) :
    (set_order s oid o).feeVaults = s.feeVaults := rfl

theorem feeVaults_set_order_node (s : EngineState) (oid : Nat) (n : OrderNode) :
    (set_order_node s oid n).feeVaults = s.feeVaults := rfl

theorem nonces_set_balance (s : EngineState) (a x : Nat) (b : Balance) :
    (set_balance s a x b).nonces = s.nonces := rfl

theorem nonces_set_order (s : EngineState) (oid : Nat) (o : Order) :
    (set_order s oid o).nonces = s.nonces := rfl

theorem nonces_set_order_node (s : EngineState) (oid : Nat) (n : OrderNode) :
    (set_order_node s oid n).nonces = s.nonces := rfl

theorem nonces_set_tick_node (s : EngineState) (m sd : Nat) (t : Int) (n : TickNode) :
    (set_tick_node s m sd t n).nonces = s.nonces := rfl

theorem nonces_set_market_best (s : EngineState) (m : Nat) (b : MarketBest) :
    (set_market_best s m b).nonces = s.nonces := rfl

theorem nonces_set_fee_vault (s : EngineState) (x t : Nat) :
    (set_fee_vault s x t).nonces = s.nonces := rfl

/-- `get_balance` only reads the `balances` field. -/
theorem get_balance_congr_balances (s t : EngineState) (h : s.balances = t.balances)
    (a x : Nat) : get_balance s a x = get_balance t a x := by
  unfold get_balance
  rw [h]

/-- `get_fee_vault` after `set_fee_vault`. -/
theorem get_fee_vault_set_fee_vault (s : EngineState) (x t x' : Nat) :
    get_fee_vault (set_fee_vault s x t) x' = if x = x' then t else get_fee_vault s x' := by
  unfold get_fee_vault set_fee_vault
  simp only []
  rw [kvGet_kvSet]
  by_cases h : x = x'
  · rw [if_pos h, if_pos h]
    rfl
  · rw [if_neg h, if_neg h]

/-- `pop_filled_maker` touches only order nodes: balances, fee vaults and
nonces are untouched. -/
theorem pop_filled_maker_preserves (s : EngineState) (tn : TickNode) (mid : Nat) :
    (pop_filled_maker s tn mid).1.balances = s.balances ∧
    (pop_filled_maker s tn mid).1.feeVaults = s.feeVaults ∧
    (pop_filled_maker s tn mid).1.nonces = s.nonces := by
  unfold pop_filled_maker
  dsimp only
  by_cases h : (get_order_node s mid).next_order_id = NONE_ORDER_ID
  · rw [if_pos h]
    exact ⟨rfl, rfl, rfl⟩
  · rw [if_neg h]
    exact ⟨rfl, rfl, rfl⟩

/-- Structural inversion of a successful Buy settlement. -/
theorem settle_fill_buy_ok_inv (rules : Rules) (trader mo : Nat) (fill q f : Nat)
    (s s' : EngineState) (h : settle_fill rules trader mo .Buy fill q f s = .ok s') :
    s' = set_balance (set_balance (set_balance (set_balance s trader rules.quote_asset_id
      ⟨(get_balance s trader rules.quote_asset_id).available,
       (get_balance s trader rules.quote_asset_id).locked - (q + f)⟩)
      trader rules.base_asset_id
      ⟨(get_balance s trader rules.base_asset_id).available + fill,
       (get_balance s trader rules.base_asset_id).locked⟩)
      mo rules.base_asset_id
      ⟨(get_balance s mo rules.base_asset_id).available,
       (get_balance s mo rules.base_asset_id).locked - fill⟩)
      mo rules.quote_asset_id
      ⟨(get_balance s mo rules.quote_asset_id).available + q,
       (get_balance s mo rules.quote_asset_id).locked⟩ := by
  unfold settle_fill at h
  dsimp only at h
  by_cases h1 : (get_balance s trader rules.quote_asset_id).locked < q + f
  · rw [if_pos h1] at h
    cases h
  · rw [if_neg h1] at h
    by_cases h2 : (get_balance s mo rules.base_asset_id).locked < fill
    · rw [if_pos h2] at h
      cases h
    · rw [if_neg h2] at h
      obtain ⟨-, h⟩ := ensure_bind_ok _ _ _ _ h
      obtain ⟨-, h⟩ := ensure_bind_ok _ _ _ _ h
      obtain ⟨-, h⟩ := ensure_bind_ok _ _ _ _ h
      obtain ⟨-, h⟩ := ensure_bind_ok _ _ _ _ h
      cases h
      rfl

/-- Structural inversion of a successful Sell settlement (also yields
`fee ≤ quote_amt`). -/
theorem settle_fill_sell_ok_inv (rules : Rules) (trader mo : Nat) (fill q f : Nat)
    (s s' : EngineState) (h : settle_fill rules trader mo .Sell fill q f s = .ok s') :
    f ≤ q ∧
    s' = set_balance (set_balance (set_balance (set_balance s trader rules.base_asset_id
      ⟨(get_balance s trader rules.base_asset_id).available,
       (get_balance s trader rules.base_asset_id).locked - fill⟩)
      trader rules.quote_asset_id
      ⟨(get_balance s trader rules.quote_asset_id).available + (q - f),
       (get_balance s trader rules.quote_asset_id).locked⟩)
      mo rules.base_asset_id
      ⟨(get_balance s mo rules.base_asset_id).available + fill,
       (get_balance s mo rules.base_asset_id).locked⟩)
      mo rules.quote_asset_id
      ⟨(get_balance s mo rules.quote_asset_id).available,
       (get_balance s mo rules.quote_asset_id).locked - q⟩ := by
  unfold settle_fill at h
  dsimp only at h
  by_cases h1 : (get_balance s trader rules.base_asset_id).locked < fill
  · rw [if_pos h1] at h
    cases h
  · rw [if_neg h1] at h
    by_cases h2 : (get_balance s mo rules.quote_asset_id).locked < q
    · rw [if_pos h2] at h
      cases h
    · rw [if_neg h2] at h
      by_cases h3 : q < f
      · rw [if_pos h3] at h
        cases h
      · rw [if_neg h3] at h
        obtain ⟨-, h⟩ := ensure_bind_ok _ _ _ _ h
        obtain ⟨-, h⟩ := ensure_bind_ok _ _ _ _ h
        obtain ⟨-, h⟩ := ensure_bind_ok _ _ _ _ h
        obtain ⟨-, h⟩ := ensure_bind_ok _ _ _ _ h
        cases h
        exact ⟨Nat.le_of_not_lt h3, rfl⟩

/-- `settle_fill` writes only balances. -/
theorem settle_fill_preserves (rules : Rules) (trader mo : Nat) (side : Side)
    (fill q f : Nat) (s s' : EngineState)
    (h : settle_fill rules trader mo side fill q f s = .ok s') :
    s'.feeVaults = s.feeVaults ∧ s'.nonces = s.nonces := by
  cases side with
  | Buy =>
    rw [settle_fill_buy_ok_inv rules trader mo fill q f s s' h]
    exact ⟨rfl, rfl⟩
  | Sell =>
    rw [(settle_fill_sell_ok_inv rules trader mo fill q f s s' h).2]
    exact ⟨rfl, rfl⟩

theorem get_fee_vault_congr (s t : EngineState) (h : s.feeVaults = t.feeVaults) (x : Nat) :
    get_fee_vault s x = get_fee_vault t x := by
  unfold get_fee_vault
  rw [h]

theorem fill_tail_balances (c : Prop) [Decidable c] (s3 : EngineState) (tn : TickNode)
    (mid : Nat) :
    (if c then pop_filled_maker s3 tn mid else (s3, tn)).1.balances = s3.balances := by
  by_cases hc : c
  · rw [if_pos hc]
    exact (pop_filled_maker_preserves s3 tn mid).1
  · rw [if_neg hc]

theorem fill_tail_feeVaults (c : Prop) [Decidable c] (s3 : EngineState) (tn : TickNode)
    (mid : Nat) :
    (if c then pop_filled_maker s3 tn mid else (s3, tn)).1.feeVaults = s3.feeVaults := by
  by_cases hc : c
  · rw [if_pos hc]
    exact (pop_filled_maker_preserves s3 tn mid).2.1
  · rw [if_neg hc]

theorem fill_tail_nonces (c : Prop) [Decidable c] (s3 : EngineState) (tn : TickNode)
    (mid : Nat) :
    (if c then pop_filled_maker s3 tn mid else (s3, tn)).1.nonces = s3.nonces := by
  by_cases hc : c
  · rw [if_pos hc]
    exact (pop_filled_maker_preserves s3 tn mid).2.2
  · rw [if_neg hc]

theorem get_fee_vault_set_order (s : EngineState) (oid : Nat) (o : Order) (x : Nat) :
    get_fee_vault (set_order s oid o) x = get_fee_vault s x := rfl

theorem get_fee_vault_fill_tail (c : Prop) [Decidable c] (s3 : EngineState) (tn : TickNode)
    (mid x : Nat) :
    get_fee_vault (if c then pop_filled_maker s3 tn mid else (s3, tn)).1 x =
      get_fee_vault s3 x :=
  get_fee_vault_congr _ _ (fill_tail_feeVaults c s3 tn mid) x

/-- Structural inversion of a successful fill iteration: it computed
`quote_amt` and `fee` with the source formulas on
`fill_qty = min(remaining, maker.qty_remaining)`, settled through
`settle_fill`, accrued `fee` into the fee-totals map and the FeeVault, and
the remaining writes (maker order, order-node pops) touch neither balances
nor nonces. -/
theorem fill_step_ok_inv (market_id : Nat) (rules : Rules) (trader order_id : Nat)
    (side : Side) (tick_price : Nat) (acc acc' : FillAcc) (maker : Order)
    (hmaker : get_order acc.s acc.tick_node.head_order_id = some maker)
    (hstep : fill_step market_id rules trader order_id side tick_price acc = .ok acc') :
    ∃ quote_amt fee s1,
      mul_div_down tick_price
        (if acc.remaining < maker.qty_remaining then acc.remaining else maker.qty_remaining)
        rules.price_scale = .ok quote_amt ∧
      mul_div_up quote_amt rules.taker_fee_bps 10000 = .ok fee ∧
      settle_fill rules trader maker.owner side
        (if acc.remaining < maker.qty_remaining then acc.remaining else maker.qty_remaining)
        quote_amt fee acc.s = .ok s1 ∧
      acc'.s.balances = s1.balances ∧
      acc'.s.nonces = s1.nonces ∧
      get_fee_vault acc'.s rules.quote_asset_id = get_fee_vault s1 rules.quote_asset_id + fee ∧
      acc'.fee_totals = kvSet acc.fee_totals rules.quote_asset_id
        ((kvGet acc.fee_totals rules.quote_asset_id).getD 0 + fee) := by
  unfold fill_step at hstep
  dsimp only at hstep
  by_cases hm : acc.matches_ctr ≥ rules.max_matches_per_order
  · rw [if_pos hm] at hstep
    cases hstep
  · rw [if_neg hm] at hstep
    rw [hmaker] at hstep
    dsimp only at hstep
    by_cases hst : maker.status ≠ OrderStatus.Open
    · rw [if_pos hst] at hstep
      cases hstep
    · rw [if_neg hst] at hstep
      by_cases hsd : maker.side = side
      · rw [if_pos hsd] at hstep
        cases hstep
      · rw [if_neg hsd] at hstep
        obtain ⟨q, hq, hstep⟩ := Except.bind_ok_inv _ _ _ hstep
        obtain ⟨f, hf, hstep⟩ := Except.bind_ok_inv _ _ _ hstep
        obtain ⟨s1, hs1, hstep⟩ := Except.bind_ok_inv _ _ _ hstep
        cases hstep
        refine ⟨q, f, s1, hq, hf, hs1, ?_, ?_, ?_, rfl⟩
        · dsimp only
          rw [fill_tail_balances]
          rfl
        · dsimp only
          rw [fill_tail_nonces]
          rfl
        · dsimp only
          rw [get_fee_vault_fill_tail, get_fee_vault_set_order,
            get_fee_vault_set_fee_vault, if_pos rfl]

theorem ite_lt_eq_min (r q : Nat) : (if r < q then r else q) = min r q := by
  by_cases h : r < q
  · rw [if_pos h, Nat.min_eq_left (Nat.le_of_lt h)]
  · rw [if_neg h, Nat.min_eq_right (Nat.le_of_not_lt h)]

/-- **C4.** For every successful fill of `fill_qty = min(taker remaining,
maker.qty_remaining)` at the maker's tick price, with
`quote_amt = ⌊tick_price·fill_qty/price_scale⌋` and
`fee = ⌈quote_amt·taker_fee_bps/10000⌉` (distinct taker and maker accounts,
distinct base and quote assets): a Buy taker settles exactly as
taker.quote.locked −= quote_amt+fee, taker.base.available += fill_qty,
maker.base.locked −= fill_qty, maker.quote.available += quote_amt; a Sell
taker settles as taker.base.locked −= fill_qty, taker.quote.available +=
quote_amt−fee (success forces fee ≤ quote_amt; `fee > quote_amt` is a Math
error), maker.quote.locked −= quote_amt, maker.base.available += fill_qty;
and in both cases the fee is added to the quote-asset fee total and the
FeeVault. -/
theorem C4_fill_settlement (market_id : Nat) (rules : Rules) (trader order_id : Nat)
    (side : Side) (tick_price : Nat) (acc acc' : FillAcc) (maker : Order)
    (hmaker : get_order acc.s acc.tick_node.head_order_id = some maker)
    (hdist : trader ≠ maker.owner)
    (hassets : rules.base_asset_id ≠ rules.quote_asset_id)
    (hstep : fill_step market_id rules trader order_id side tick_price acc = .ok acc') :
    ∃ quote_amt fee,
      mul_div_down tick_price (min acc.remaining maker.qty_remaining) rules.price_scale =
        .ok quote_amt ∧
      mul_div_up quote_amt rules.taker_fee_bps 10000 = .ok fee ∧
      (side = .Buy →
        get_balance acc'.s trader rules.quote_asset_id =
          ⟨(get_balance acc.s trader rules.quote_asset_id).available,
           (get_balance acc.s trader rules.quote_asset_id).locked - (quote_amt + fee)⟩ ∧
        get_balance acc'.s trader rules.base_asset_id =
          ⟨(get_balance acc.s trader rules.base_asset_id).available +
             min acc.remaining maker.qty_remaining,
           (get_balance acc.s trader rules.base_asset_id).locked⟩ ∧
        get_balance acc'.s maker.owner rules.base_asset_id =
          ⟨(get_balance acc.s maker.owner rules.base_asset_id).available,
           (get_balance acc.s maker.owner rules.base_asset_id).locked -
             min acc.remaining maker.qty_remaining⟩ ∧
        get_balance acc'.s maker.owner rules.quote_asset_id =
          ⟨(get_balance acc.s maker.owner rules.quote_asset_id).available + quote_amt,
           (get_balance acc.s maker.owner rules.quote_asset_id).locked⟩) ∧
      (side = .Sell →
        fee ≤ quote_amt ∧
        get_balance acc'.s trader rules.base_asset_id =
          ⟨(get_balance acc.s trader rules.base_asset_id).available,
           (get_balance acc.s trader rules.base_asset_id).locked -
             min acc.remaining maker.qty_remaining⟩ ∧
        get_balance acc'.s trader rules.quote_asset_id =
          ⟨(get_balance acc.s trader rules.quote_asset_id).available + (quote_amt - fee),
           (get_balance acc.s trader rules.quote_asset_id).locked⟩ ∧
        get_balance acc'.s maker.owner rules.quote_asset_id =
          ⟨(get_balance acc.s maker.owner rules.quote_asset_id).available,
           (get_balance acc.s maker.owner rules.quote_asset_id).locked - quote_amt⟩ ∧
        get_balance acc'.s maker.owner rules.base_asset_id =
          ⟨(get_balance acc.s maker.owner rules.base_asset_id).available +
             min acc.remaining maker.qty_remaining,
           (get_balance acc.s maker.owner rules.base_asset_id).locked⟩) ∧
      get_fee_vault acc'.s rules.quote_asset_id =
        get_fee_vault acc.s rules.quote_asset_id + fee ∧
      kvGet acc'.fee_totals rules.quote_asset_id =
        some ((kvGet acc.fee_totals rules.quote_asset_id).getD 0 + fee) := by
  obtain ⟨q, f, s1, hq, hf, hs1, hbal, hnon, hvault, htot⟩ :=
    fill_step_ok_inv market_id rules trader order_id side tick_price acc acc' maker hmaker hstep
  rw [ite_lt_eq_min] at hq hs1
  have hk_mq_tq : ¬ ((maker.owner, rules.quote_asset_id) = (trader, rules.quote_asset_id)) :=
    fun h => hdist (congrArg Prod.fst h).symm
  have hk_mb_tb : ¬ ((maker.owner, rules.base_asset_id) = (trader, rules.base_asset_id)) :=
    fun h => hdist (congrArg Prod.fst h).symm
  have hk_mq_tb : ¬ ((maker.owner, rules.quote_asset_id) = (trader, rules.base_asset_id)) :=
    fun h => hdist (congrArg Prod.fst h).symm
  have hk_mb_tq : ¬ ((maker.owner, rules.base_asset_id) = (trader, rules.quote_asset_id)) :=
    fun h => hdist (congrArg Prod.fst h).symm
  have hk_tb_tq : ¬ ((trader, rules.base_asset_id) = (trader, rules.quote_asset_id)) :=
    fun h => hassets (congrArg Prod.snd h)
  have hk_tq_tb : ¬ ((trader, rules.quote_asset_id) = (trader, rules.base_asset_id)) :=
    fun h => hassets (congrArg Prod.snd h).symm
  have hk_mq_mb : ¬ ((maker.owner, rules.quote_asset_id) = (maker.owner, rules.base_asset_id)) :=
    fun h => hassets (congrArg Prod.snd h).symm
  have hk_mb_mq : ¬ ((maker.owner, rules.base_asset_id) = (maker.owner, rules.quote_asset_id)) :=
    fun h => hassets (congrArg Prod.snd h)
  refine ⟨q, f, hq, hf, ?_, ?_, ?_, ?_⟩
  · intro hside
    subst hside
    have hchain := settle_fill_buy_ok_inv rules trader maker.owner
      (min acc.remaining maker.qty_remaining) q f acc.s s1 hs1
    refine ⟨?_, ?_, ?_, ?_⟩
    · rw [get_balance_congr_balances acc'.s s1 hbal, hchain,
        get_balance_set_balance, if_neg hk_mq_tq,
        get_balance_set_balance, if_neg hk_mb_tq,
        get_balance_set_balance, if_neg hk_tb_tq,
        get_balance_set_balance, if_pos rfl]
    · rw [get_balance_congr_balances acc'.s s1 hbal, hchain,
        get_balance_set_balance, if_neg hk_mq_tb,
        get_balance_set_balance, if_neg hk_mb_tb,
        get_balance_set_balance, if_pos rfl]
    · rw [get_balance_congr_balances acc'.s s1 hbal, hchain,
        get_balance_set_balance, if_neg hk_mq_mb,
        get_balance_set_balance, if_pos rfl]
    · rw [get_balance_congr_balances acc'.s s1 hbal, hchain,
        get_balance_set_balance, if_pos rfl]
  · intro hside
    subst hside
    obtain ⟨hfee, hchain⟩ := settle_fill_sell_ok_inv rules trader maker.owner
      (min acc.remaining maker.qty_remaining) q f acc.s s1 hs1
    refine ⟨hfee, ?_, ?_, ?_, ?_⟩
    · rw [get_balance_congr_balances acc'.s s1 hbal, hchain,
        get_balance_set_balance, if_neg hk_mq_tb,
        get_balance_set_balance, if_neg hk_mb_tb,
        get_balance_set_balance, if_neg hk_tq_tb,
        get_balance_set_balance, if_pos rfl]
    · rw [get_balance_congr_balances acc'.s s1 hbal, hchain,
        get_balance_set_balance, if_neg hk_mq_tq,
        get_balance_set_balance, if_neg hk_mb_tq,
        get_balance_set_balance, if_pos rfl]
    · rw [get_balance_congr_balances acc'.s s1 hbal, hchain,
        get_balance_set_balance, if_pos rfl]
    · rw [get_balance_congr_balances acc'.s s1 hbal, hchain,
        get_balance_set_balance, if_neg hk_mq_mb,
        get_balance_set_balance, if_pos rfl]
  · rw [hvault, get_fee_vault_congr s1 acc.s
      (settle_fill_preserves rules trader maker.owner side _ q f acc.s s1 hs1).1]
  · rw [htot, kvGet_kvSet, if_pos rfl]

/-- Concrete fill: taker 7 buys 3 of maker 6's resting 5-lot ask at tick 1. -/
def c4f_pre : EngineState :=
  ⟨[((7, 2), ⟨0, 5⟩), ((7, 1), ⟨0, 0⟩), ((6, 1), ⟨0, 5⟩), ((6, 2), ⟨0, 0⟩)], [],
   [(9, ⟨6, .Sell, 1, 5, .Gtc, .Open⟩)], [], [], [], []⟩

/-- The fill-loop accumulator entering the concrete fill. -/
def c4f_acc : FillAcc := ⟨c4f_pre, ⟨NONE_TICK, NONE_TICK, 9, 9⟩, 3, 0, [], []⟩

/-- The fill-loop accumulator after the concrete fill. -/
def c4f_post : FillAcc :=
  ⟨⟨[((7, 2), ⟨0, 2⟩), ((7, 1), ⟨3, 0⟩), ((6, 1), ⟨0, 2⟩), ((6, 2), ⟨3, 0⟩)], [],
    [(9, ⟨6, .Sell, 1, 2, .Gtc, .Open⟩)], [], [], [], [(2, 0)]⟩,
   ⟨NONE_TICK, NONE_TICK, 9, 9⟩, 0, 1,
   [⟨3, 9, 8, 6, 7, .Buy, 1, 3, 3, 0⟩], [(2, 0)]⟩

/-- **C4 witness.** The settlement characterisation applied at the concrete
Buy fill of 3 base at tick price 10^18 with zero fee. -/
theorem C4_fill_settlement_witness :
    ∃ quote_amt fee,
      mul_div_down (10 ^ 18) (min 3 5) rulesA.price_scale = .ok quote_amt ∧
      mul_div_up quote_amt rulesA.taker_fee_bps 10000 = .ok fee ∧
      (Side.Buy = Side.Buy →
        get_balance c4f_post.s 7 rulesA.quote_asset_id =
          ⟨(get_balance c4f_acc.s 7 rulesA.quote_asset_id).available,
           (get_balance c4f_acc.s 7 rulesA.quote_asset_id).locked - (quote_amt + fee)⟩ ∧
        get_balance c4f_post.s 7 rulesA.base_asset_id =
          ⟨(get_balance c4f_acc.s 7 rulesA.base_asset_id).available + min 3 5,
           (get_balance c4f_acc.s 7 rulesA.base_asset_id).locked⟩ ∧
        get_balance c4f_post.s 6 rulesA.base_asset_id =
          ⟨(get_balance c4f_acc.s 6 rulesA.base_asset_id).available,
           (get_balance c4f_acc.s 6 rulesA.base_asset_id).locked - min 3 5⟩ ∧
        get_balance c4f_post.s 6 rulesA.quote_asset_id =
          ⟨(get_balance c4f_acc.s 6 rulesA.quote_asset_id).available + quote_amt,
           (get_balance c4f_acc.s 6 rulesA.quote_asset_id).locked⟩) ∧
      (Side.Buy = Side.Sell →
        fee ≤ quote_amt ∧
        get_balance c4f_post.s 7 rulesA.base_asset_id =
          ⟨(get_balance c4f_acc.s 7 rulesA.base_asset_id).available,
           (get_balance c4f_acc.s 7 rulesA.base_asset_id).locked - min 3 5⟩ ∧
        get_balance c4f_post.s 7 rulesA.quote_asset_id =
          ⟨(get_balance c4f_acc.s 7 rulesA.quote_asset_id).available + (quote_amt - fee),
           (get_balance c4f_acc.s 7 rulesA.quote_asset_id).locked⟩ ∧
        get_balance c4f_post.s 6 rulesA.quote_asset_id =
          ⟨(get_balance c4f_acc.s 6 rulesA.quote_asset_id).available,
           (get_balance c4f_acc.s 6 rulesA.quote_asset_id).locked - quote_amt⟩ ∧
        get_balance c4f_post.s 6 rulesA.base_asset_id =
          ⟨(get_balance c4f_acc.s 6 rulesA.base_asset_id).available + min 3 5,
           (get_balance c4f_acc.s 6 rulesA.base_asset_id).locked⟩) ∧
      get_fee_vault c4f_post.s rulesA.quote_asset_id =
        get_fee_vault c4f_acc.s rulesA.quote_asset_id + fee ∧
      kvGet c4f_post.fee_totals rulesA.quote_asset_id =
        some ((kvGet c4f_acc.fee_totals rulesA.quote_asset_id).getD 0 + fee) :=
  C4_fill_settlement 3 rulesA 7 8 .Buy (10 ^ 18) c4f_acc c4f_post
    ⟨6, .Sell, 1, 5, .Gtc, .Open⟩ rfl (by decide) (by decide) rfl

theorem nonces_ite_eng (c : Prop) [Decidable c] (a b : EngineState) (n : List (Nat × Nat))
    (ha : a.nonces = n) (hb : b.nonces = n) : (if c then a else b).nonces = n := by
  by_cases h : c
  · rw [if_pos h]
    exact ha
  · rw [if_neg h]
    exact hb

/-- A release never touches the nonce map. -/
theorem release_remaining_nonces (s : EngineState) (trader : Nat) (side : Side)
    (remaining price : Nat) (rules : Rules) (s' : EngineState)
    (h : release_remaining s trader side remaining price rules = .ok s') :
    s'.nonces = s.nonces := by
  cases side with
  | Buy =>
    unfold release_remaining at h
    dsimp only at h
    obtain ⟨release, -, hk⟩ := Except.bind_ok_inv _ _ _ h
    by_cases hc : (get_balance s trader rules.quote_asset_id).locked < release
    · rw [if_pos hc] at hk
      cases hk
    · rw [if_neg hc] at hk
      obtain ⟨-, hpure⟩ := ensure_bind_ok _ _ _ _ hk
      cases hpure
      rfl
  | Sell =>
    unfold release_remaining at h
    dsimp only at h
    by_cases hc : (get_balance s trader rules.base_asset_id).locked < remaining
    · rw [if_pos hc] at h
      cases h
    · rw [if_neg hc] at h
      obtain ⟨-, hpure⟩ := ensure_bind_ok _ _ _ _ h
      cases hpure
      rfl

/-- A fill iteration never touches the nonce map. -/
theorem fill_step_nonces (market_id : Nat) (rules : Rules) (trader order_id : Nat)
    (side : Side) (tick_price : Nat) (acc acc' : FillAcc)
    (h : fill_step market_id rules trader order_id side tick_price acc = .ok acc') :
    acc'.s.nonces = acc.s.nonces := by
  cases hm : get_order acc.s acc.tick_node.head_order_id with
  | none =>
    exfalso
    unfold fill_step at h
    dsimp only at h
    by_cases hmm : acc.matches_ctr ≥ rules.max_matches_per_order
    · rw [if_pos hmm] at h
      cases h
    · rw [if_neg hmm, hm] at h
      dsimp only at h
      cases h
  | some maker =>
    obtain ⟨q, f, s1, -, -, hs1, -, hnon, -, -⟩ :=
      fill_step_ok_inv market_id rules trader order_id side tick_price acc acc' maker hm h
    rw [hnon,
      (settle_fill_preserves rules trader maker.owner side _ q f acc.s s1 hs1).2]

/-- The inner match loop never touches the nonce map. -/
theorem match_at_tick_nonces (fuel : Nat) (market_id : Nat) (rules : Rules)
    (trader order_id : Nat) (side : Side) (tick_price : Nat) (acc acc' : FillAcc)
    (h : match_at_tick fuel market_id rules trader order_id side tick_price acc = .ok acc') :
    acc'.s.nonces = acc.s.nonces := by
  induction fuel generalizing acc with
  | zero =>
    unfold match_at_tick at h
    cases h
  | succ fuel ih =>
    unfold match_at_tick at h
    by_cases hc : acc.tick_node.head_order_id = NONE_ORDER_ID ∨ acc.remaining = 0
    · rw [if_pos hc] at h
      cases h
      rfl
    · rw [if_neg hc] at h
      obtain ⟨acc1, h1, h2⟩ := Except.bind_ok_inv _ _ _ h
      rw [ih acc1 h2,
        fill_step_nonces market_id rules trader order_id side tick_price acc acc1 h1]

/-- The outer match loop never touches the nonce map. -/
theorem match_loop_nonces (fuel : Nat) (market_id : Nat) (rules : Rules)
    (trader order_id : Nat) (side : Side) (limit_price : Nat) (s : EngineState)
    (best : MarketBest) (remaining matches_ctr : Nat) (trades : List TradeRecord)
    (fee_totals : List (Nat × Nat))
    (out : EngineState × MarketBest × Nat × Nat × List TradeRecord × List (Nat × Nat))
    (h : match_loop fuel market_id rules trader order_id side limit_price s best
      remaining matches_ctr trades fee_totals = .ok out) :
    out.1.nonces = s.nonces := by
  induction fuel generalizing s best remaining matches_ctr trades fee_totals with
  | zero =>
    unfold match_loop at h
    cases h
  | succ fuel ih =>
    unfold match_loop at h
    cases side with
    | Buy =>
      dsimp only at h
      by_cases h0 : best.best_ask = NONE_TICK
      · rw [if_pos h0] at h
        cases h
        rfl
      · rw [if_neg h0] at h
        obtain ⟨tp, -, h⟩ := Except.bind_ok_inv _ _ _ h
        by_cases h1 : decide (tp ≤ limit_price) = false ∨ remaining = 0
        · rw [if_pos h1] at h
          cases h
          rfl
        · rw [if_neg h1] at h
          obtain ⟨acc1, hacc, h⟩ := Except.bind_ok_inv _ _ _ h
          have hacc1 : acc1.s.nonces = s.nonces :=
            match_at_tick_nonces (fuel + 1) market_id rules trader order_id Side.Buy tp _ acc1 hacc
          by_cases hc : acc1.tick_node.head_order_id = NONE_ORDER_ID
          · rw [if_pos hc] at h
            obtain ⟨y, hy, h⟩ := Except.bind_ok_inv _ _ _ h
            cases hy
            have hy1 : (set_market_best (set_tick_node
                (if acc1.tick_node.next_tick ≠ NONE_TICK then
                  set_tick_node
                    (if acc1.tick_node.prev_tick ≠ NONE_TICK then
                      set_tick_node acc1.s market_id Side.Buy.opposite.as_u8 acc1.tick_node.prev_tick
                        { get_tick_node acc1.s market_id Side.Buy.opposite.as_u8
                            acc1.tick_node.prev_tick with next_tick := acc1.tick_node.next_tick }
                    else acc1.s)
                    market_id Side.Buy.opposite.as_u8 acc1.tick_node.next_tick
                    { get_tick_node
                        (if acc1.tick_node.prev_tick ≠ NONE_TICK then
                          set_tick_node acc1.s market_id Side.Buy.opposite.as_u8
                            acc1.tick_node.prev_tick
                            { get_tick_node acc1.s market_id Side.Buy.opposite.as_u8
                                acc1.tick_node.prev_tick with
                                next_tick := acc1.tick_node.next_tick }
                        else acc1.s)
                        market_id Side.Buy.opposite.as_u8 acc1.tick_node.next_tick with
                        prev_tick := acc1.tick_node.prev_tick }
                else
                  (if acc1.tick_node.prev_tick ≠ NONE_TICK then
                    set_tick_node acc1.s market_id Side.Buy.opposite.as_u8 acc1.tick_node.prev_tick
                      { get_tick_node acc1.s market_id Side.Buy.opposite.as_u8
                          acc1.tick_node.prev_tick with next_tick := acc1.tick_node.next_tick }
                  else acc1.s))
                market_id Side.Buy.opposite.as_u8 best.best_ask
                ⟨NONE_TICK, NONE_TICK, NONE_ORDER_ID, NONE_ORDER_ID⟩) market_id
                (if best.best_ask = best.best_ask then
                  { best with best_ask := acc1.tick_node.next_tick } else best)).nonces = s.nonces := by
              rw [nonces_set_market_best, nonces_set_tick_node]
              refine nonces_ite_eng _ _ _ _ ?_ ?_
              · rw [nonces_set_tick_node]
                exact nonces_ite_eng _ _ _ _
                  ((nonces_set_tick_node _ _ _ _ _).trans hacc1) hacc1
              · exact nonces_ite_eng _ _ _ _
                  ((nonces_set_tick_node _ _ _ _ _).trans hacc1) hacc1
            by_cases hr : acc1.remaining = 0
            · rw [if_pos hr] at h
              cases h
              exact hy1
            · rw [if_neg hr] at h
              exact (ih _ _ _ _ _ _ h).trans hy1
          · rw [if_neg hc] at h
            obtain ⟨y, hy, h⟩ := Except.bind_ok_inv _ _ _ h
            cases hy
            have hy1 : (set_tick_node acc1.s market_id Side.Buy.opposite.as_u8 best.best_ask
                acc1.tick_node).nonces = s.nonces :=
              (nonces_set_tick_node _ _ _ _ _).trans hacc1
            by_cases hr : acc1.remaining = 0
            · rw [if_pos hr] at h
              cases h
              exact hy1
            · rw [if_neg hr] at h
              exact (ih _ _ _ _ _ _ h).trans hy1
    | Sell =>
      dsimp only at h
      by_cases h0 : best.best_bid = NONE_TICK
      · rw [if_pos h0] at h
        cases h
        rfl
      · rw [if_neg h0] at h
        obtain ⟨tp, -, h⟩ := Except.bind_ok_inv _ _ _ h
        by_cases h1 : decide (tp ≥ limit_price) = false ∨ remaining = 0
        · rw [if_pos h1] at h
          cases h
          rfl
        · rw [if_neg h1] at h
          obtain ⟨acc1, hacc, h⟩ := Except.bind_ok_inv _ _ _ h
          have hacc1 : acc1.s.nonces = s.nonces :=
            match_at_tick_nonces (fuel + 1) market_id rules trader order_id Side.Sell tp _ acc1 hacc
          by_cases hc : acc1.tick_node.head_order_id = NONE_ORDER_ID
          · rw [if_pos hc] at h
            obtain ⟨y, hy, h⟩ := Except.bind_ok_inv _ _ _ h
            cases hy
            have hy1 : (set_market_best (set_tick_node
                (if acc1.tick_node.next_tick ≠ NONE_TICK then
                  set_tick_node
                    (if acc1.tick_node.prev_tick ≠ NONE_TICK then
                      set_tick_node acc1.s market_id Side.Sell.opposite.as_u8 acc1.tick_node.prev_tick
                        { get_tick_node acc1.s market_id Side.Sell.opposite.as_u8
                            acc1.tick_node.prev_tick with next_tick := acc1.tick_node.next_tick }
                    else acc1.s)
                    market_id Side.Sell.opposite.as_u8 acc1.tick_node.next_tick
                    { get_tick_node
                        (if acc1.tick_node.prev_tick ≠ NONE_TICK then
                          set_tick_node acc1.s market_id Side.Sell.opposite.as_u8
                            acc1.tick_node.prev_tick
                            { get_tick_node acc1.s market_id Side.Sell.opposite.as_u8
                                acc1.tick_node.prev_tick with
                                next_tick := acc1.tick_node.next_tick }
                        else acc1.s)
                        market_id Side.Sell.opposite.as_u8 acc1.tick_node.next_tick with
                        prev_tick := acc1.tick_node.prev_tick }
                else
                  (if acc1.tick_node.prev_tick ≠ NONE_TICK then
                    set_tick_node acc1.s market_id Side.Sell.opposite.as_u8 acc1.tick_node.prev_tick
                      { get_tick_node acc1.s market_id Side.Sell.opposite.as_u8
                          acc1.tick_node.prev_tick with next_tick := acc1.tick_node.next_tick }
                  else acc1.s))
                market_id Side.Sell.opposite.as_u8 best.best_bid
                ⟨NONE_TICK, NONE_TICK, NONE_ORDER_ID, NONE_ORDER_ID⟩) market_id
                (if best.best_bid = best.best_bid then
                  { best with best_bid := acc1.tick_node.next_tick } else best)).nonces = s.nonces := by
              rw [nonces_set_market_best, nonces_set_tick_node]
              refine nonces_ite_eng _ _ _ _ ?_ ?_
              · rw [nonces_set_tick_node]
                exact nonces_ite_eng _ _ _ _
                  ((nonces_set_tick_node _ _ _ _ _).trans hacc1) hacc1
              · exact nonces_ite_eng _ _ _ _
                  ((nonces_set_tick_node _ _ _ _ _).trans hacc1) hacc1
            by_cases hr : acc1.remaining = 0
            · rw [if_pos hr] at h
              cases h
              exact hy1
            · rw [if_neg hr] at h
              exact (ih _ _ _ _ _ _ h).trans hy1
          · rw [if_neg hc] at h
            obtain ⟨y, hy, h⟩ := Except.bind_ok_inv _ _ _ h
            cases hy
            have hy1 : (set_tick_node acc1.s market_id Side.Sell.opposite.as_u8 best.best_bid
                acc1.tick_node).nonces = s.nonces :=
              (nonces_set_tick_node _ _ _ _ _).trans hacc1
            by_cases hr : acc1.remaining = 0
            · rw [if_pos hr] at h
              cases h
              exact hy1
            · rw [if_neg hr] at h
              exact (ih _ _ _ _ _ _ h).trans hy1

/-- A resting placement never touches the nonce map. -/
theorem place_resting_nonces (s : EngineState) (market_id : Nat) (order_id trader : Nat)
    (side : Side) (tick : Int) (qty_remaining : Nat) (tif : TimeInForce)
    (prev_tick_hint next_tick_hint : Int) (best : MarketBest)
    (out : EngineState × MarketBest)
    (h : place_resting s market_id order_id trader side tick qty_remaining tif
      prev_tick_hint next_tick_hint best = .ok out) :
    out.1.nonces = s.nonces := by
  unfold place_resting at h
  dsimp only at h
  by_cases hact : ¬ ((get_tick_node s market_id side.as_u8 tick).head_order_id ≠ NONE_ORDER_ID)
  · rw [if_pos hact] at h
    obtain ⟨u, -, h⟩ := Except.bind_ok_inv _ _ _ h
    obtain ⟨y, hy, h⟩ := Except.bind_ok_inv _ _ _ h
    cases hy
    cases h
    dsimp only
    rw [nonces_set_order_node, nonces_set_order, nonces_set_tick_node,
      nonces_set_market_best]
    refine nonces_ite_eng _ _ _ _ ?_ ?_
    · rw [nonces_set_tick_node]
      exact nonces_ite_eng _ _ _ _ (nonces_set_tick_node _ _ _ _ _) rfl
    · exact nonces_ite_eng _ _ _ _ (nonces_set_tick_node _ _ _ _ _) rfl
  · rw [if_neg hact] at h
    obtain ⟨y, hy, h⟩ := Except.bind_ok_inv _ _ _ h
    cases hy
    cases h
    dsimp only
    rw [nonces_set_order_node, nonces_set_order, nonces_set_tick_node]
    exact nonces_ite_eng _ _ _ _ (nonces_set_order_node _ _ _) rfl

set_option maxHeartbeats 1000000 in
/-- A book removal never touches the nonce map. -/
theorem remove_from_book_nonces (s : EngineState) (market_id : Nat) (side : Side)
    (tick : Int) (order_id : Nat) :
    (remove_from_book s market_id side tick order_id).nonces = s.nonces := by
  unfold remove_from_book
  dsimp only
  split_ifs <;> rfl

/-- A Place never touches the nonce map. -/
theorem process_place_nonces (fuel : Nat) (market_id : Nat) (rules : Rules) (s : EngineState)
    (trader order_id : Nat) (side : Side) (tif : TimeInForce) (tick_index : Int)
    (qty_base : Nat) (prev_tick_hint next_tick_hint : Int) (trades : List TradeRecord)
    (fee_totals : List (Nat × Nat))
    (out : EngineState × List TradeRecord × List (Nat × Nat))
    (h : process_place fuel market_id rules s trader order_id side tif tick_index qty_base
      prev_tick_hint next_tick_hint trades fee_totals = .ok out) :
    out.1.nonces = s.nonces := by
  unfold process_place at h
  by_cases hdup : (get_order s order_id).isSome = true
  · rw [if_pos hdup] at h
    cases h
  · rw [if_neg hdup] at h
    by_cases hq : qty_base = 0
    · rw [if_pos hq] at h
      cases h
    · rw [if_neg hq] at h
      obtain ⟨u, -, h⟩ := Except.bind_ok_inv _ _ _ h
      obtain ⟨price, -, h⟩ := Except.bind_ok_inv _ _ _ h
      cases side with
      | Buy =>
        dsimp only at h
        obtain ⟨lock, -, h⟩ := Except.bind_ok_inv _ _ _ h
        by_cases hav : (get_balance s trader rules.quote_asset_id).available < lock
        · rw [if_pos hav] at h
          cases h
        · rw [if_neg hav] at h
          obtain ⟨y, hy, h⟩ := Except.bind_ok_inv _ _ _ h
          cases hy
          obtain ⟨ml, hml, h⟩ := Except.bind_ok_inv _ _ _ h
          have hmln : ml.1.nonces = s.nonces :=
            (match_loop_nonces fuel market_id rules trader order_id .Buy price _ _ qty_base 0
              trades fee_totals ml hml).trans (nonces_set_balance _ _ _ _)
          cases tif with
          | Ioc =>
            dsimp only at h
            by_cases hrem : ml.2.2.1 ≠ 0
            · rw [if_pos hrem] at h
              obtain ⟨s2, hrel, h⟩ := Except.bind_ok_inv _ _ _ h
              cases h
              dsimp only
              rw [nonces_set_order]
              exact (release_remaining_nonces _ _ _ _ _ _ _ hrel).trans hmln
            · rw [if_neg hrem] at h
              obtain ⟨s2, hs2, h⟩ := Except.bind_ok_inv _ _ _ h
              cases hs2
              cases h
              dsimp only
              rw [nonces_set_order]
              exact hmln
          | Gtc =>
            dsimp only at h
            by_cases hrem : ml.2.2.1 = 0
            · rw [if_pos hrem] at h
              cases h
              dsimp only
              rw [nonces_set_order]
              exact hmln
            · rw [if_neg hrem] at h
              obtain ⟨pr, hpr, h⟩ := Except.bind_ok_inv _ _ _ h
              cases h
              dsimp only
              exact (place_resting_nonces _ _ _ _ _ _ _ _ _ _ _ _ hpr).trans hmln
      | Sell =>
        dsimp only at h
        by_cases hav : (get_balance s trader rules.base_asset_id).available < qty_base
        · rw [if_pos hav] at h
          cases h
        · rw [if_neg hav] at h
          obtain ⟨y, hy, h⟩ := Except.bind_ok_inv _ _ _ h
          cases hy
          obtain ⟨ml, hml, h⟩ := Except.bind_ok_inv _ _ _ h
          have hmln : ml.1.nonces = s.nonces :=
            (match_loop_nonces fuel market_id rules trader order_id .Sell price _ _ qty_base 0
              trades fee_totals ml hml).trans (nonces_set_balance _ _ _ _)
          cases tif with
          | Ioc =>
            dsimp only at h
            by_cases hrem : ml.2.2.1 ≠ 0
            · rw [if_pos hrem] at h
              obtain ⟨s2, hrel, h⟩ := Except.bind_ok_inv _ _ _ h
              cases h
              dsimp only
              rw [nonces_set_order]
              exact (release_remaining_nonces _ _ _ _ _ _ _ hrel).trans hmln
            · rw [if_neg hrem] at h
              obtain ⟨s2, hs2, h⟩ := Except.bind_ok_inv _ _ _ h
              cases hs2
              cases h
              dsimp only
              rw [nonces_set_order]
              exact hmln
          | Gtc =>
            dsimp only at h
            by_cases hrem : ml.2.2.1 = 0
            · rw [if_pos hrem] at h
              cases h
              dsimp only
              rw [nonces_set_order]
              exact hmln
            · rw [if_neg hrem] at h
              obtain ⟨pr, hpr, h⟩ := Except.bind_ok_inv _ _ _ h
              cases h
              dsimp only
              exact (place_resting_nonces _ _ _ _ _ _ _ _ _ _ _ _ hpr).trans hmln

/-- Success of a message leaves the nonce map exactly as written by the
nonce write-back, and the message's nonce was the stored nonce plus one. -/
theorem process_message_ok_nonce (fuel : Nat) (verify_sig : SigVerifier) (market_id : Nat)
    (rules : Rules) (domain_sep : Nat) (s : EngineState) (trades : List TradeRecord)
    (fee_totals : List (Nat × Nat)) (signed : SignedMessage)
    (out : EngineState × List TradeRecord × List (Nat × Nat))
    (h : process_message fuel verify_sig market_id rules domain_sep s trades fee_totals signed =
      .ok out) :
    signed.message.nonce = get_nonce s signed.message.trader + 1 ∧
    out.1.nonces = (set_nonce s signed.message.trader signed.message.nonce).nonces := by
  obtain ⟨msg, sig⟩ := signed
  unfold process_message at h
  dsimp only at h
  obtain ⟨u, -, h⟩ := Except.bind_ok_inv _ _ _ h
  by_cases hn : msg.nonce ≠ get_nonce s msg.trader + 1
  · rw [if_pos hn] at h
    cases h
  · rw [if_neg hn] at h
    refine ⟨not_not.mp hn, ?_⟩
    cases msg with
    | Place tr n oid sd tf ti qb ph nh =>
      dsimp only at h
      exact process_place_nonces fuel market_id rules _ tr oid sd tf ti qb ph nh trades
        fee_totals out h
    | Cancel tr n oid =>
      simp only [Message.trader, Message.nonce] at h
      cases horder : get_order (set_nonce s tr n) oid with
      | none =>
        rw [horder] at h
        cases h
      | some order =>
        rw [horder] at h
        dsimp only at h
        by_cases howner : order.owner ≠ tr
        · rw [if_pos howner] at h
          cases h
        · rw [if_neg howner] at h
          by_cases hstatus : order.status ≠ OrderStatus.Open
          · rw [if_pos hstatus] at h
            cases h
          · rw [if_neg hstatus] at h
            obtain ⟨price, -, h⟩ := Except.bind_ok_inv _ _ _ h
            obtain ⟨s2, hrel, h⟩ := Except.bind_ok_inv _ _ _ h
            cases h
            dsimp only
            rw [remove_from_book_nonces, nonces_set_order]
            exact release_remaining_nonces _ _ _ _ _ _ _ hrel

/-- A wrong nonce fails the message with the Invalid nonce error, provided
the signature oracle accepted the message. -/
theorem process_message_nonce_mismatch (fuel : Nat) (verify_sig : SigVerifier)
    (market_id : Nat) (rules : Rules) (domain_sep : Nat) (s : EngineState)
    (trades : List TradeRecord) (fee_totals : List (Nat × Nat)) (signed : SignedMessage)
    (hsig : verify_sig domain_sep signed.message signed.signature signed.message.trader =
      .ok ())
    (hn : signed.message.nonce ≠ get_nonce s signed.message.trader + 1) :
    process_message fuel verify_sig market_id rules domain_sep s trades fee_totals signed =
      .error (.Invalid "nonce mismatch") := by
  unfold process_message
  dsimp only
  rw [hsig]
  simp only [ok_bind]
  rw [if_pos hn]
  rfl

/-- The nonce stored after a successful message: the message's nonce for its
trader, unchanged for everyone else. -/
theorem get_nonce_after (s : EngineState) (tr n : Nat) (s' : EngineState)
    (h : s'.nonces = (set_nonce s tr n).nonces) (t : Nat) :
    get_nonce s' t = if tr = t then n else get_nonce s t := by
  unfold get_nonce
  rw [h]
  show (kvGet (kvSet s.nonces tr n) t).getD 0 = _
  rw [kvGet_kvSet]
  by_cases he : tr = t
  · rw [if_pos he, if_pos he]
    rfl
  · rw [if_neg he, if_neg he]

/-- The nonces of one trader's messages, in batch order. -/
def trader_nonces (t : Nat) (msgs : List SignedMessage) : List Nat :=
  (msgs.filter (fun sm => decide (sm.message.trader = t))).map (fun sm => sm.message.nonce)

/-- **C6.** For every message, `apply_batch` reads the trader's stored nonce
(0 when absent) and fails the whole batch with an Invalid error unless the
message nonce equals stored+1 (given the signature was accepted); on success
the message nonce is written back and no other account's nonce changes; hence
over any accepted batch, each account's persisted nonces form the strictly
increasing sequence stored+1, stored+2, … — starting at 1 for a fresh
account. -/
theorem C6_nonce_check_and_monotonicity :
    (∀ fuel verify_sig market_id rules domain_sep s trades fee_totals signed out,
       process_message fuel verify_sig market_id rules domain_sep s trades fee_totals signed =
         .ok out →
       signed.message.nonce = get_nonce s signed.message.trader + 1 ∧
       get_nonce out.1 signed.message.trader = signed.message.nonce ∧
       (∀ t, t ≠ signed.message.trader → get_nonce out.1 t = get_nonce s t)) ∧
    (∀ fuel verify_sig market_id rules domain_sep s trades fee_totals signed,
       verify_sig domain_sep signed.message signed.signature signed.message.trader = .ok () →
       signed.message.nonce ≠ get_nonce s signed.message.trader + 1 →
       process_message fuel verify_sig market_id rules domain_sep s trades fee_totals signed =
         .error (.Invalid "nonce mismatch")) ∧
    (∀ fuel verify_sig market_id rules domain_sep msgs s trades fee_totals out t,
       apply_messages fuel verify_sig market_id rules domain_sep msgs s trades fee_totals =
         .ok out →
       trader_nonces t msgs =
         List.range' (get_nonce s t + 1) (trader_nonces t msgs).length) := by
  refine ⟨?_, ?_, ?_⟩
  · intro fuel vs mid rules ds s trades fees signed out h
    obtain ⟨h1, h2⟩ := process_message_ok_nonce fuel vs mid rules ds s trades fees signed out h
    refine ⟨h1, ?_, ?_⟩
    · rw [get_nonce_after s _ _ _ h2, if_pos rfl]
    · intro t ht
      rw [get_nonce_after s _ _ _ h2, if_neg (fun he => ht he.symm)]
  · intro fuel vs mid rules ds s trades fees signed hsig hn
    exact process_message_nonce_mismatch fuel vs mid rules ds s trades fees signed hsig hn
  · intro fuel vs mid rules ds msgs
    induction msgs with
    | nil =>
      intro s trades fees out t h
      rfl
    | cons m rest ih =>
      intro s trades fees out t h
      unfold apply_messages at h
      obtain ⟨r, h1, h2⟩ := Except.bind_ok_inv _ _ _ h
      obtain ⟨hn1, hn2⟩ := process_message_ok_nonce fuel vs mid rules ds s trades fees m r h1
      have hr := ih r.1 r.2.1 r.2.2 out t h2
      obtain ⟨k, hk⟩ : ∃ k, (trader_nonces t rest).length = k := ⟨_, rfl⟩
      rw [hk] at hr
      by_cases ht : m.message.trader = t
      · have hcons : trader_nonces t (m :: rest) = m.message.nonce :: trader_nonces t rest := by
          unfold trader_nonces
          rw [List.filter_cons, if_pos (by simp [ht]), List.map_cons]
        have hstart : get_nonce r.1 t = m.message.nonce := by
          rw [get_nonce_after s _ _ _ hn2, if_pos ht]
        rw [ht] at hn1
        rw [hcons, List.length_cons, hk, hr, hstart, hn1]
        rfl
      · have hcons : trader_nonces t (m :: rest) = trader_nonces t rest := by
          unfold trader_nonces
          rw [List.filter_cons, if_neg (by simp [ht])]
        have hsame : get_nonce r.1 t = get_nonce s t := by
          rw [get_nonce_after s _ _ _ hn2, if_neg ht]
        rw [hcons, hk, hr, hsame]

/-- The state after the self-trade message is processed. -/
def c6w_post : EngineState :=
  ⟨[((7, 2), ⟨5, 5⟩), ((7, 1), ⟨0, 0⟩)], [(7, 1)],
   [(9, ⟨7, .Sell, 1, 0, .Gtc, .Filled⟩), (8, ⟨7, .Buy, 1, 0, .Ioc, .Filled⟩)],
   [(9, ⟨0, 0⟩)],
   [((3, 1, 1), ⟨NONE_TICK, NONE_TICK, 0, 0⟩)],
   [(3, ⟨NONE_TICK, NONE_TICK⟩)], [(2, 0)]⟩

/-- A message from trader 7 with the gap nonce 5. -/
def c6w_badmsg : SignedMessage := ⟨.Cancel 7 5 9, 0⟩

/-- **C6 witness.** The nonce characterisation applied at the concrete batch:
the accepted message carries nonce = stored+1 and persists it; a nonce-gap
message fails with the Invalid nonce error; and an accepted batch's nonces
form the consecutive range. -/
theorem C6_nonce_check_and_monotonicity_witness :
    (c1_msg.message.nonce = get_nonce c1_pre c1_msg.message.trader + 1 ∧
     get_nonce c6w_post c1_msg.message.trader = c1_msg.message.nonce ∧
     (∀ t, t ≠ c1_msg.message.trader → get_nonce c6w_post t = get_nonce c1_pre t)) ∧
    process_message 20 vs_ok 3 rulesA 0 c1_pre [] [] c6w_badmsg =
      .error (.Invalid "nonce mismatch") ∧
    trader_nonces 7 [c1_msg] =
      List.range' (get_nonce c1_pre 7 + 1) (trader_nonces 7 [c1_msg]).length := by
  refine ⟨?_, ?_, ?_⟩
  · exact C6_nonce_check_and_monotonicity.1 20 vs_ok 3 rulesA 0 c1_pre [] [] c1_msg
      (c6w_post, [⟨3, 9, 8, 7, 7, .Buy, 1, 5, 5, 0⟩], [(2, 0)]) rfl
  · exact C6_nonce_check_and_monotonicity.2.1 20 vs_ok 3 rulesA 0 c1_pre [] [] c6w_badmsg
      rfl (by decide)
  · exact C6_nonce_check_and_monotonicity.2.2 20 vs_ok 3 rulesA 0 [c1_msg] c1_pre [] []
      (c6w_post, [⟨3, 9, 8, 7, 7, .Buy, 1, 5, 5, 0⟩], [(2, 0)]) 7 rfl
